import Mathlib

/-!
Verification of the Neon Hand Control repository (2D/3D air drawing).

This file gives a shallow embedding of the core of the repository:

* the gesture classifier of src/core/gestureDetector.ts,
* the two stroke accumulators (Canvas2D in src/drawing/canvas2D.ts and
  NeonLine3D / Scene3D in src/three/neonLine3D.ts, src/three/scene.ts),
* the per-frame orchestrator NeonHandControlApp.updateDrawing of src/main.ts,

and proves the testable properties stated in the specification against it.

Numbers: the source computes with IEEE doubles; the embedding idealises them
as rationals.  Euclidean distances use Math.sqrt, which has no exact rational
counterpart, so every distance-using definition is parameterised by a
function sqrt : Rat -> Rat.  Theorems that need nothing beyond the program
structure hold for every such function; the ones that need metric facts take
an explicit lower-approximation hypothesis (SqrtLB below), satisfied both by
the real square root and by the executable rational approximation ratSqrt,
which is exact on squares and is used for all concrete evaluations.
-/

/-- Executable rational square-root approximation.  For x = p/q it returns
floor-sqrt(p*q)/q, which is a lower bound of the real square root and is
exact whenever x is the square of a rational. -/
def ratSqrt (x : ℚ) : ℚ :=
  (Int.sqrt (x.num * (x.den : ℤ)) : ℚ) / (x.den : ℚ)

/-- A function is an admissible square root for the metric arguments below if
it is nonnegative on nonnegatives and its square is a lower bound of the
argument.  The real square root satisfies this (with equality), and so does
ratSqrt. -/
def SqrtLB (sqrt : ℚ → ℚ) : Prop :=
  ∀ x : ℚ, 0 ≤ x → 0 ≤ sqrt x ∧ sqrt x ^ 2 ≤ x

lemma ratSqrt_lb : SqrtLB ratSqrt := by
  intro x hx
  have hden : (0 : ℚ) < (x.den : ℚ) := by exact_mod_cast x.pos
  have hnum : (0 : ℤ) ≤ x.num := Rat.num_nonneg.mpr hx
  have hprod : (0 : ℤ) ≤ x.num * (x.den : ℤ) := by positivity
  have hs0 : (0 : ℤ) ≤ Int.sqrt (x.num * (x.den : ℤ)) := Int.sqrt_nonneg _
  constructor
  · exact div_nonneg (by exact_mod_cast hs0) hden.le
  · have htn : (((x.num * (x.den : ℤ)).toNat : ℤ)) = x.num * (x.den : ℤ) :=
      Int.toNat_of_nonneg hprod
    have hsq : Int.sqrt (x.num * (x.den : ℤ)) ^ 2 ≤ x.num * (x.den : ℤ) := by
      calc Int.sqrt (x.num * (x.den : ℤ)) ^ 2
          = ((Nat.sqrt (x.num * (x.den : ℤ)).toNat ^ 2 : ℕ) : ℤ) := by
            rw [Int.sqrt]; push_cast; ring
        _ ≤ (((x.num * (x.den : ℤ)).toNat : ℕ) : ℤ) := by
            exact_mod_cast Nat.sqrt_le' _
        _ = x.num * (x.den : ℤ) := htn
    have hsqQ : ((Int.sqrt (x.num * (x.den : ℤ)) : ℚ)) ^ 2
        ≤ ((x.num : ℚ) * (x.den : ℚ)) := by exact_mod_cast hsq
    have hden' : (x.den : ℚ) ≠ 0 := hden.ne'
    have h : (x.num : ℚ) = x * (x.den : ℚ) := by
      have h0 := Rat.num_div_den x
      have := congrArg (fun t => t * (x.den : ℚ)) h0
      simp only [div_mul_eq_mul_div, mul_div_assoc, div_self hden', mul_one] at this
      exact this
    rw [ratSqrt, div_pow]
    rw [div_le_iff₀ (by positivity : (0 : ℚ) < (x.den : ℚ) ^ 2)]
    calc (Int.sqrt (x.num * (x.den : ℤ)) : ℚ) ^ 2
        ≤ (x.num : ℚ) * (x.den : ℚ) := hsqQ
      _ = (x * (x.den : ℚ)) * (x.den : ℚ) := by rw [h]
      _ = x * (x.den : ℚ) ^ 2 := by ring

/-- ratSqrt is exact on squares of nonnegative rationals, which is how all
concrete distance evaluations below are carried out. -/
lemma ratSqrt_sq (q : ℚ) (hq : 0 ≤ q) : ratSqrt (q ^ 2) = q := by
  have hnum : (q ^ 2).num = q.num ^ 2 := Rat.num_pow q 2
  have hden : (q ^ 2).den = q.den ^ 2 := Rat.den_pow q 2
  have hnum0 : (0 : ℤ) ≤ q.num := Rat.num_nonneg.mpr hq
  have hdenQ : (0 : ℚ) < (q.den : ℚ) := by exact_mod_cast q.pos
  have harg : (q ^ 2).num * ((q ^ 2).den : ℤ) = (q.num * (q.den : ℤ)) * (q.num * (q.den : ℤ)) := by
    rw [hnum, hden]; push_cast; ring
  have hsqrt : Int.sqrt ((q ^ 2).num * ((q ^ 2).den : ℤ)) = q.num * (q.den : ℤ) := by
    rw [harg, Int.sqrt_eq]
    exact Int.natAbs_of_nonneg (by positivity)
  rw [ratSqrt, hsqrt, hden]
  push_cast
  rw [div_eq_iff (by positivity)]
  have h := Rat.num_div_den q
  have hq' : (q.num : ℚ) = q * (q.den : ℚ) := by
    have := congrArg (fun t => t * (q.den : ℚ)) h
    simp only [div_mul_eq_mul_div, mul_div_assoc, div_self hdenQ.ne', mul_one] at this
    exact this
  rw [hq']; ring

/-- ratSqrt of zero is zero; convenient corollary for coincident points. -/
lemma ratSqrt_zero : ratSqrt 0 = 0 := by
  have h := ratSqrt_sq 0 le_rfl
  simpa using h

/-! ## Configuration (src/core/config.ts)

Only the entries read by the embedded code are reproduced. -/

namespace CONFIG

def pinchThreshold : ℚ := 5 / 100
def fistThreshold : ℚ := 8 / 100
def spreadThreshold : ℚ := 15 / 100
def depthSensitivity : ℚ := 2
def smoothingFactor : ℚ := 7 / 10
def minDistance : ℚ := 1 / 100
def canvasWidth : ℚ := 1280
def canvasHeight : ℚ := 720

end CONFIG

/-! ## Data model (src/core/handTracker.ts, src/core/gestureDetector.ts) -/

/-- One normalized hand landmark, fields x, y, z as in HandLandmark. -/
structure Landmark where
  x : ℚ
  y : ℚ
  z : ℚ
deriving DecidableEq, Repr

/-- Hand tracking data.  Of the HandData interface only the landmarks field is
ever read by the gesture detector and the orchestrator, so the remaining
fields (handedness, confidences, cached wrist/indexTip) are omitted. -/
structure HandData where
  landmarks : List Landmark
deriving DecidableEq, Repr

/-- The Gesture enum of gestureDetector.ts. -/
inductive Gesture where
  | none
  | openHand
  | closedFist
  | pinch
  | spreadFingers
deriving DecidableEq, Repr

/-- Diagnostic distance record carried in GestureState.metadata. -/
structure GDistances where
  pinch : Option ℚ := Option.none
  fist : Option ℚ := Option.none
  spread : Option ℚ := Option.none
deriving DecidableEq, Repr

/-- The GestureState record returned by GestureDetector.detect. -/
structure GestureState where
  gesture : Gesture
  confidence : ℚ
  isDrawing : Bool
  depth : ℚ
  metadata : Option GDistances := Option.none
deriving DecidableEq, Repr

/-- Mutable state of a GestureDetector instance: the previous gesture and the
bounded gesture history (historySize = 5). -/
structure Detector where
  previousGesture : Gesture := Gesture.none
  gestureHistory : List Gesture := []
deriving DecidableEq, Repr

namespace GestureDetector

/-- GestureDetector.calculateDistance: 3D Euclidean distance between two
landmarks, with the square root abstracted. -/
def calculateDistance (sqrt : ℚ → ℚ) (a b : Landmark) : ℚ :=
  sqrt ((a.x - b.x) * (a.x - b.x) + (a.y - b.y) * (a.y - b.y)
    + (a.z - b.z) * (a.z - b.z))

/-- GestureDetector.updateHistory: push the gesture, evict the oldest entry
once the history exceeds historySize = 5, record the previous gesture. -/
def updateHistory (g : Gesture) (d : Detector) : Detector :=
  let h := d.gestureHistory ++ [g]
  let h := if h.length > 5 then h.drop 1 else h
  { previousGesture := g, gestureHistory := h }

/-- Result record of detectPinch. -/
structure PinchResult where
  confidence : ℚ
  distance : ℚ
deriving DecidableEq, Repr

/-- Result record of detectFist. -/
structure FistResult where
  confidence : ℚ
  avgDistance : ℚ
deriving DecidableEq, Repr

/-- Result record of detectSpread. -/
structure SpreadResult where
  confidence : ℚ
  minDistance : ℚ
deriving DecidableEq, Repr

/-- Result record of detectOpen. -/
structure OpenResult where
  confidence : ℚ
deriving DecidableEq, Repr

/-- GestureDetector.detectPinch.  Reading landmarks[4] or landmarks[8] when it
is absent is the JavaScript undefined-property TypeError, modelled by
Option.none propagation. -/
def detectPinch (sqrt : ℚ → ℚ) (lms : List Landmark) : Option PinchResult := do
  let thumbTip ← lms[4]?
  let indexTip ← lms[8]?
  let distance := calculateDistance sqrt thumbTip indexTip
  let normalizedDistance := distance / CONFIG.pinchThreshold
  let confidence := max 0 (min 1 (1 - normalizedDistance))
  pure ⟨confidence, distance⟩

/-- GestureDetector.detectFist: mean distance from the five finger tips to the
wrist, confidence the clamped inverse against fistThreshold. -/
def detectFist (sqrt : ℚ → ℚ) (lms : List Landmark) : Option FistResult := do
  let wrist ← lms[0]?
  let t4 ← lms[4]?
  let t8 ← lms[8]?
  let t12 ← lms[12]?
  let t16 ← lms[16]?
  let t20 ← lms[20]?
  let distances := [calculateDistance sqrt wrist t4, calculateDistance sqrt wrist t8,
    calculateDistance sqrt wrist t12, calculateDistance sqrt wrist t16,
    calculateDistance sqrt wrist t20]
  let avgDistance := distances.sum / (distances.length : ℚ)
  let normalizedDistance := avgDistance / CONFIG.fistThreshold
  let confidence := max 0 (min 1 (1 - normalizedDistance))
  pure ⟨confidence, avgDistance⟩

/-- GestureDetector.detectSpread: minimum distance over adjacent finger-tip
pairs, confidence the clamped ratio against spreadThreshold. -/
def detectSpread (sqrt : ℚ → ℚ) (lms : List Landmark) : Option SpreadResult := do
  let t8 ← lms[8]?
  let t12 ← lms[12]?
  let t16 ← lms[16]?
  let t20 ← lms[20]?
  let d1 := calculateDistance sqrt t8 t12
  let d2 := calculateDistance sqrt t12 t16
  let d3 := calculateDistance sqrt t16 t20
  let minDistance := min d1 (min d2 d3)
  let normalizedDistance := minDistance / CONFIG.spreadThreshold
  let confidence := max 0 (min 1 normalizedDistance)
  pure ⟨confidence, minDistance⟩

/-- GestureDetector.detectOpen: two-stage blend of the inverse of the averaged
fist and pinch confidences with the middle-finger extension ratio (hardcoded
0.15 normalisation). -/
def detectOpen (sqrt : ℚ → ℚ) (lms : List Landmark)
    (fistConfidence pinchConfidence : ℚ) : Option OpenResult := do
  let combinedConfidence := (fistConfidence + pinchConfidence) / 2
  let confidence := max 0 (1 - combinedConfidence)
  let wrist ← lms[0]?
  let middleTip ← lms[12]?
  let middleDistance := calculateDistance sqrt wrist middleTip
  let extendedConfidence := min 1 (middleDistance / (15 / 100))
  let finalConfidence := (confidence + extendedConfidence) / 2
  pure ⟨finalConfidence⟩

/-- GestureDetector.detect.  A null observation yields the None state without
touching the history.  Otherwise the four confidences are computed and
resolved by strict-greater-than 0.5 priority PINCH > FIST > SPREAD > OPEN >
NONE.  An observation with a missing landmark makes the JavaScript code throw
a TypeError inside the first detector that dereferences it; the thrown frame
is modelled as Option.none. -/
def detect (sqrt : ℚ → ℚ) (d : Detector) (handData : Option HandData) :
    Option (GestureState × Detector) :=
  match handData with
  | Option.none =>
      Option.some (⟨Gesture.none, 0, false, 1/2, Option.none⟩, d)
  | Option.some h => do
      let lms := h.landmarks
      let pinchResult ← detectPinch sqrt lms
      let fistResult ← detectFist sqrt lms
      let spreadResult ← detectSpread sqrt lms
      let openResult ← detectOpen sqrt lms fistResult.confidence pinchResult.confidence
      if pinchResult.confidence > 1/2 then
        pure (⟨Gesture.pinch, pinchResult.confidence, true, 1/2,
          Option.some { pinch := Option.some pinchResult.distance }⟩,
          updateHistory Gesture.pinch d)
      else if fistResult.confidence > 1/2 then do
        let wrist ← lms[0]?
        let normalizedDepth := 1 - wrist.y
        let depth := max 0 (min 1 (normalizedDepth * CONFIG.depthSensitivity))
        pure (⟨Gesture.closedFist, fistResult.confidence, true, depth,
          Option.some { fist := Option.some fistResult.avgDistance }⟩,
          updateHistory Gesture.closedFist d)
      else if spreadResult.confidence > 1/2 then
        pure (⟨Gesture.spreadFingers, spreadResult.confidence, false, 1/2,
          Option.some { spread := Option.some spreadResult.minDistance }⟩,
          updateHistory Gesture.spreadFingers d)
      else if openResult.confidence > 1/2 then
        pure (⟨Gesture.openHand, openResult.confidence, false, 1/2, Option.none⟩,
          updateHistory Gesture.openHand d)
      else
        pure (⟨Gesture.none, 0, false, 1/2, Option.none⟩,
          updateHistory Gesture.none d)

end GestureDetector

/-! ## 2D stroke accumulator (src/drawing/canvas2D.ts)

Only the drawing-state logic is embedded; rasterisation calls (drawNeonLine
on the canvas context) are presentation side effects on an external surface
and carry no state read back by the code. -/

/-- A 2D point as in the Point2D type of canvas2D.ts. -/
structure Point2D where
  x : ℚ
  y : ℚ
deriving DecidableEq, Repr

namespace Canvas2D

/-- Drawing-relevant mutable state of a Canvas2D instance. -/
structure State where
  lastPoint : Option Point2D
  isDrawing : Bool
  pointBuffer : List Point2D
  smoothedPoints : List Point2D
deriving DecidableEq, Repr

/-- State of a freshly constructed Canvas2D. -/
def initial : State := ⟨Option.none, false, [], []⟩

/-- Canvas2D.getDistance: Euclidean distance between two points. -/
def getDistance (sqrt : ℚ → ℚ) (a b : Point2D) : ℚ :=
  sqrt ((b.x - a.x) * (b.x - a.x) + (b.y - a.y) * (b.y - a.y))

/-- Canvas2D.interpolate: linear interpolation between two points. -/
def interpolate (a b : Point2D) (factor : ℚ) : Point2D :=
  ⟨a.x + (b.x - a.x) * factor, a.y + (b.y - a.y) * factor⟩

/-- Canvas2D.calculateMovingAverage over the point buffer. -/
def calculateMovingAverage (buf : List Point2D) : Point2D :=
  let sum := buf.foldl (fun acc p => Point2D.mk (acc.x + p.x) (acc.y + p.y)) ⟨0, 0⟩
  ⟨sum.x / (buf.length : ℚ), sum.y / (buf.length : ℚ)⟩

/-- Canvas2D.cubicInterpolate: weighted average of the last three buffered
points (weights 0.1, 0.3, 0.6 oldest to newest), blended toward the argument
point by factor 0.7.  The null-check on lastPoint in the source is satisfied
by construction here because the caller has already matched on it. -/
def cubicInterpolate (buf : List Point2D) (point : Point2D) : Point2D :=
  if buf.length < 3 then point
  else
    let startIdx := buf.length - 3
    let pts := buf.drop startIdx
    let ws := (List.range pts.length).map
      (fun i => [(1 : ℚ)/10, 3/10, 6/10].getD i (6/10))
    let weightedX := ((pts.zip ws).map (fun pw => pw.1.x * pw.2)).sum
    let weightedY := ((pts.zip ws).map (fun pw => pw.1.y * pw.2)).sum
    let totalWeight := ws.sum
    let smoothed := Point2D.mk (weightedX / totalWeight) (weightedY / totalWeight)
    interpolate smoothed point (7/10)

/-- Canvas2D.applySmoothing on the post-push buffer, given the (non-null)
last committed point. -/
def applySmoothing (buf : List Point2D) (last : Point2D) (point : Point2D) : Point2D :=
  if buf.length = 1 then point
  else
    let avgPoint := calculateMovingAverage buf
    let interpolatedPoint := interpolate last avgPoint CONFIG.smoothingFactor
    if buf.length ≥ 5 then cubicInterpolate buf interpolatedPoint
    else interpolatedPoint

/-- Canvas2D.startDrawing. -/
def startDrawing (point : Point2D) (_s : State) : State :=
  { isDrawing := true, lastPoint := Option.some point,
    pointBuffer := [point], smoothedPoints := [point] }

/-- Canvas2D.drawTo: push the raw point into the capacity-5 buffer, smooth,
apply the minimum-distance jitter gate, and commit on success. -/
def drawTo (sqrt : ℚ → ℚ) (point : Point2D) (s : State) : State :=
  if s.isDrawing = false then s
  else
    match s.lastPoint with
    | Option.none => s
    | Option.some last =>
      let buf := s.pointBuffer ++ [point]
      let buf := if buf.length > 5 then buf.drop 1 else buf
      let smoothedPoint := applySmoothing buf last point
      let distance := getDistance sqrt last smoothedPoint
      if distance < CONFIG.minDistance then { s with pointBuffer := buf }
      else
        { s with pointBuffer := buf,
                 smoothedPoints := s.smoothedPoints ++ [smoothedPoint],
                 lastPoint := Option.some smoothedPoint }

/-- Canvas2D.stopDrawing: reset all drawing state (the final render pass is
external). -/
def stopDrawing (_s : State) : State :=
  { isDrawing := false, lastPoint := Option.none,
    pointBuffer := [], smoothedPoints := [] }

/-- Canvas2D.clear: clearRect is external; the state effect is stopDrawing. -/
def clear (s : State) : State := stopDrawing s

/-- Canvas2D.normalizeToCanvas with the configured 1280 by 720 canvas. -/
def normalizeToCanvas (normalizedX normalizedY : ℚ) : Point2D :=
  ⟨normalizedX * CONFIG.canvasWidth, normalizedY * CONFIG.canvasHeight⟩

end Canvas2D

/-! ## 3D stroke accumulator (src/three/neonLine3D.ts, src/three/scene.ts) -/

namespace THREE

/-- A 3D point (THREE.Vector3; only the coordinate data is modelled). -/
structure Vector3 where
  x : ℚ
  y : ℚ
  z : ℚ
deriving DecidableEq, Repr

end THREE

namespace NeonLine3D

/-- Drawing-relevant state of one NeonLine3D (its geometry object mirrors
points and is not separately modelled). -/
structure Line where
  points : List THREE.Vector3
  lastPoint : Option THREE.Vector3
  isDrawing : Bool
deriving DecidableEq, Repr

/-- State of a freshly constructed NeonLine3D. -/
def fresh : Line := ⟨[], Option.none, false⟩

/-- NeonLine3D.interpolate, that is THREE.Vector3.lerp. -/
def interpolate (a b : THREE.Vector3) (factor : ℚ) : THREE.Vector3 :=
  ⟨a.x + (b.x - a.x) * factor, a.y + (b.y - a.y) * factor, a.z + (b.z - a.z) * factor⟩

/-- THREE.Vector3.distanceTo between two points. -/
def distanceTo (sqrt : ℚ → ℚ) (a b : THREE.Vector3) : ℚ :=
  sqrt ((a.x - b.x) * (a.x - b.x) + (a.y - b.y) * (a.y - b.y) + (a.z - b.z) * (a.z - b.z))

/-- NeonLine3D.startDrawing. -/
def startDrawing (point : THREE.Vector3) (_l : Line) : Line :=
  { isDrawing := true, lastPoint := Option.some point, points := [point] }

/-- NeonLine3D.addPoint: a single linear interpolation from the last
committed point toward the raw point by smoothingFactor, then the
minimum-distance gate. -/
def addPoint (sqrt : ℚ → ℚ) (point : THREE.Vector3) (l : Line) : Line :=
  if l.isDrawing = false then l
  else
    match l.lastPoint with
    | Option.none => l
    | Option.some last =>
      let smoothedPoint := interpolate last point CONFIG.smoothingFactor
      let distance := distanceTo sqrt last smoothedPoint
      if distance < CONFIG.minDistance then l
      else
        { l with points := l.points ++ [smoothedPoint],
                 lastPoint := Option.some smoothedPoint }

/-- NeonLine3D.stopDrawing: the committed points persist. -/
def stopDrawing (l : Line) : Line :=
  { l with isDrawing := false, lastPoint := Option.none }

end NeonLine3D

/-- Replace the last element of a list by its image under f (used to model
in-place mutation of the line object aliased by Scene3D.currentLine, which
is always the most recently pushed element of Scene3D.lines). -/
def updateLast {α : Type} (f : α → α) : List α → List α
  | [] => []
  | [a] => [f a]
  | a :: b :: rest => a :: updateLast f (b :: rest)

namespace Scene3D

/-- Drawing-relevant state of Scene3D: the list of created lines and whether
currentLine is non-null.  In the source currentLine aliases the last pushed
element of lines, so it is represented positionally. -/
structure State where
  lines : List NeonLine3D.Line
  hasCurrent : Bool
deriving DecidableEq, Repr

/-- State of a freshly constructed Scene3D. -/
def initial : State := ⟨[], false⟩

/-- Scene3D.startDrawing: create a new line, start it, push it, and make it
current.  The previously current line, if any, is simply abandoned. -/
def startDrawing (x y z : ℚ) (s : State) : State :=
  { lines := s.lines ++ [NeonLine3D.startDrawing ⟨x, y, z⟩ NeonLine3D.fresh],
    hasCurrent := true }

/-- Scene3D.addPoint: forwarded to the current line when one exists. -/
def addPoint (sqrt : ℚ → ℚ) (x y z : ℚ) (s : State) : State :=
  if s.hasCurrent then
    { s with lines := updateLast (NeonLine3D.addPoint sqrt ⟨x, y, z⟩) s.lines }
  else s

/-- Scene3D.stopDrawing: stop the current line and null the reference. -/
def stopDrawing (s : State) : State :=
  if s.hasCurrent then
    { lines := updateLast NeonLine3D.stopDrawing s.lines, hasCurrent := false }
  else s

/-- Scene3D.clear: every line is cleared and removed from the scene. -/
def clear (_s : State) : State := ⟨[], false⟩

/-- DepthController.normalizeTo3D with the default world scale 10 and depth
range 10; the container aspect ratio is a parameter of the embedding. -/
def normalizeTo3D (aspect : ℚ) (normalizedX normalizedY normalizedZ : ℚ) : THREE.Vector3 :=
  ⟨(normalizedX - 1/2) * 10 * aspect, (1/2 - normalizedY) * 10, (normalizedZ - 1/2) * 10⟩

end Scene3D

/-! ## Orchestrator (src/main.ts, NeonHandControlApp) -/

/-- The DrawingMode union of ui/modeIndicator.ts. -/
inductive DrawingMode where
  | twoD
  | threeD
  | noneMode
deriving DecidableEq, Repr

/-- Drawing-relevant mutable state of NeonHandControlApp. -/
structure App where
  currentMode : DrawingMode
  lastGestureState : Option GestureState
  canvas2D : Canvas2D.State
  scene3D : Scene3D.State
  detector : Detector
deriving DecidableEq, Repr

namespace App

/-- Application state right after construction. -/
def initial : App :=
  { currentMode := DrawingMode.noneMode, lastGestureState := Option.none,
    canvas2D := Canvas2D.initial, scene3D := Scene3D.initial, detector := {} }

/-- The optional-chaining test lastGestureState?.gesture === g. -/
def lastGestureIs (g : Gesture) (s : App) : Bool :=
  match s.lastGestureState with
  | Option.some lg => lg.gesture == g
  | Option.none => false

/-- The optional-chaining test lastGestureState?.isDrawing. -/
def lastWasDrawing (s : App) : Bool :=
  match s.lastGestureState with
  | Option.some lg => lg.isDrawing
  | Option.none => false

/-- NeonHandControlApp.updateDrawing, the per-frame drawing orchestration.
A missing index-tip landmark in the drawing branch would be a TypeError in
the source; that point is unreachable because the classifier has already
dereferenced landmark 8 successfully, and the embedding leaves the state
unchanged there. -/
def updateDrawing (sqrt : ℚ → ℚ) (aspect : ℚ) (gs : GestureState)
    (hd : Option HandData) (s : App) : App :=
  match hd with
  | Option.none =>
    let s :=
      if s.currentMode = DrawingMode.twoD then
        { s with canvas2D := Canvas2D.stopDrawing s.canvas2D }
      else if s.currentMode = DrawingMode.threeD then
        { s with scene3D := Scene3D.stopDrawing s.scene3D }
      else s
    { s with currentMode := DrawingMode.noneMode }
  | Option.some h =>
    if gs.gesture = Gesture.spreadFingers then
      if s.currentMode = DrawingMode.twoD then
        { s with canvas2D := Canvas2D.clear s.canvas2D }
      else if s.currentMode = DrawingMode.threeD then
        { s with scene3D := Scene3D.clear s.scene3D }
      else s
    else if gs.gesture = Gesture.openHand then
      { s with currentMode := DrawingMode.twoD,
               canvas2D := Canvas2D.stopDrawing s.canvas2D }
    else
      let mode :=
        if gs.gesture = Gesture.closedFist then DrawingMode.threeD
        else if gs.gesture = Gesture.pinch then DrawingMode.twoD
        else s.currentMode
      let s := { s with currentMode := mode }
      if gs.isDrawing && gs.gesture == Gesture.pinch then
        match h.landmarks[8]? with
        | Option.none => s
        | Option.some indexTip =>
          if s.currentMode = DrawingMode.twoD then
            let s :=
              if lastGestureIs Gesture.closedFist s then
                { s with scene3D := Scene3D.stopDrawing s.scene3D }
              else s
            let point := Canvas2D.normalizeToCanvas indexTip.x indexTip.y
            if !lastWasDrawing s || !lastGestureIs Gesture.pinch s then
              { s with canvas2D := Canvas2D.startDrawing point s.canvas2D }
            else
              { s with canvas2D := Canvas2D.drawTo sqrt point s.canvas2D }
          else if s.currentMode = DrawingMode.threeD then
            let s :=
              if lastGestureIs Gesture.pinch s || lastGestureIs Gesture.openHand s then
                { s with canvas2D := Canvas2D.stopDrawing s.canvas2D }
              else s
            let coords := Scene3D.normalizeTo3D aspect indexTip.x indexTip.y gs.depth
            if !lastWasDrawing s || !lastGestureIs Gesture.closedFist s then
              { s with scene3D := Scene3D.startDrawing coords.x coords.y coords.z s.scene3D }
            else
              { s with scene3D := Scene3D.addPoint sqrt coords.x coords.y coords.z s.scene3D }
          else s
      else
        if s.currentMode = DrawingMode.twoD then
          { s with canvas2D := Canvas2D.stopDrawing s.canvas2D }
        else if s.currentMode = DrawingMode.threeD then
          { s with scene3D := Scene3D.stopDrawing s.scene3D }
        else s

/-- NeonHandControlApp.handleHandData: classify, update drawing, record the
gesture state.  When the classifier throws (missing landmarks) the frame
aborts before any drawing mutation, leaving the state unchanged. -/
def handleHandData (sqrt : ℚ → ℚ) (aspect : ℚ) (s : App) (hd : Option HandData) : App :=
  match GestureDetector.detect sqrt s.detector hd with
  | Option.none => s
  | Option.some (gs, det') =>
    let s := { s with detector := det' }
    let s := updateDrawing sqrt aspect gs hd s
    { s with lastGestureState := Option.some gs }

/-- Processing of a whole frame sequence from application start. -/
def processFrames (sqrt : ℚ → ℚ) (aspect : ℚ) (frames : List (Option HandData)) : App :=
  frames.foldl (handleHandData sqrt aspect) initial

end App

/-! ## Claim C8: out-of-sequence accumulator operations -/

/-- C8: on either accumulator, addPoint (drawTo) with no open stroke is a
no-op, stopDrawing with no open stroke (already-closed state) is a no-op,
and stopDrawing is idempotent, so a double stopDrawing is harmless.  All
operations are total, so none of them can raise. -/
theorem accumulator_noop_idempotent (sqrt : ℚ → ℚ) (p2 : Point2D)
    (p3 : THREE.Vector3) (x y z : ℚ) (s : Canvas2D.State)
    (l : NeonLine3D.Line) (sc : Scene3D.State) :
    (s.isDrawing = false → Canvas2D.drawTo sqrt p2 s = s) ∧
    (s.isDrawing = false → s.lastPoint = Option.none → s.pointBuffer = [] →
      s.smoothedPoints = [] → Canvas2D.stopDrawing s = s) ∧
    (Canvas2D.stopDrawing (Canvas2D.stopDrawing s) = Canvas2D.stopDrawing s) ∧
    (l.isDrawing = false → NeonLine3D.addPoint sqrt p3 l = l) ∧
    (l.isDrawing = false → l.lastPoint = Option.none → NeonLine3D.stopDrawing l = l) ∧
    (NeonLine3D.stopDrawing (NeonLine3D.stopDrawing l) = NeonLine3D.stopDrawing l) ∧
    (sc.hasCurrent = false → Scene3D.addPoint sqrt x y z sc = sc) ∧
    (sc.hasCurrent = false → Scene3D.stopDrawing sc = sc) ∧
    (Scene3D.stopDrawing (Scene3D.stopDrawing sc) = Scene3D.stopDrawing sc) := by
  refine ⟨?_, ?_, ?_, ?_, ?_, ?_, ?_, ?_, ?_⟩
  · intro h; simp [Canvas2D.drawTo, h]
  · intro h1 h2 h3 h4
    cases s
    simp_all [Canvas2D.stopDrawing]
  · rfl
  · intro h; simp [NeonLine3D.addPoint, h]
  · intro h1 h2
    cases l
    simp_all [NeonLine3D.stopDrawing]
  · simp [NeonLine3D.stopDrawing]
  · intro h; simp [Scene3D.addPoint, h]
  · intro h; simp [Scene3D.stopDrawing, h]
  · unfold Scene3D.stopDrawing
    by_cases h : sc.hasCurrent <;> simp [h]

/-- Witness for C8 at concrete closed states. -/
theorem accumulator_noop_idempotent_witness :
    (Canvas2D.initial.isDrawing = false ∧ Canvas2D.initial.lastPoint = Option.none ∧
      NeonLine3D.fresh.isDrawing = false ∧ Scene3D.initial.hasCurrent = false) ∧
    (Canvas2D.drawTo ratSqrt ⟨0, 0⟩ Canvas2D.initial = Canvas2D.initial ∧
      NeonLine3D.addPoint ratSqrt ⟨0, 0, 0⟩ NeonLine3D.fresh = NeonLine3D.fresh ∧
      Scene3D.addPoint ratSqrt 0 0 0 Scene3D.initial = Scene3D.initial ∧
      Scene3D.stopDrawing Scene3D.initial = Scene3D.initial) := by
  have h := accumulator_noop_idempotent ratSqrt ⟨0, 0⟩ ⟨0, 0, 0⟩ 0 0 0
    Canvas2D.initial NeonLine3D.fresh Scene3D.initial
  exact ⟨⟨rfl, rfl, rfl, rfl⟩,
    h.1 rfl, h.2.2.2.1 rfl, h.2.2.2.2.2.2.1 rfl, h.2.2.2.2.2.2.2.1 rfl⟩

/-! ## Claim C10: depth defaults to one half away from the fist branch -/

/-- C10: every GestureState produced by detect carries depth one half unless
the resolved gesture is the closed fist, whose branch is the only one that
computes a different depth. -/
theorem detect_depth_default (sqrt : ℚ → ℚ) (d : Detector) (hd : Option HandData)
    (gs : GestureState) (d' : Detector)
    (hdet : GestureDetector.detect sqrt d hd = Option.some (gs, d'))
    (hg : gs.gesture ≠ Gesture.closedFist) : gs.depth = 1/2 := by
  cases hd with
  | none =>
    simp only [GestureDetector.detect, Option.some.injEq, Prod.mk.injEq] at hdet
    rw [← hdet.1]
  | some h =>
    simp only [GestureDetector.detect, Option.bind_eq_bind, Option.bind_eq_some,
      Option.pure_def, Option.some.injEq] at hdet
    obtain ⟨pr, hp, fr, hf, sr, hs, orr, ho, hdet⟩ := hdet
    split at hdet
    · cases hdet; simp_all
    · split at hdet
      · simp only [Option.bind_eq_some, Option.some.injEq] at hdet
        obtain ⟨w, hw, hdet⟩ := hdet
        cases hdet
        simp_all
      · split at hdet
        · cases hdet; simp_all
        · split at hdet
          · cases hdet; simp_all
          · cases hdet; simp_all

/-- Witness for C10 at the null observation. -/
theorem detect_depth_default_witness :
    (GestureDetector.detect ratSqrt {} Option.none =
      Option.some (⟨Gesture.none, 0, false, 1/2, Option.none⟩, {}) ∧
      Gesture.none ≠ Gesture.closedFist) ∧
    (⟨Gesture.none, 0, false, 1/2, Option.none⟩ : GestureState).depth = 1/2 :=
  ⟨⟨rfl, by decide⟩,
    detect_depth_default ratSqrt {} Option.none _ _ rfl (by decide)⟩

/-! ## Claim C3: null observation versus short landmark lists -/

/-- C3 evaluation: a null observation yields the documented None state, but an
observation with only 20 landmarks does NOT degrade to the None state: the
classifier dereferences landmark 20 inside detectFist, which in JavaScript
throws a TypeError (modelled by Option.none), contradicting the
specification's defensive-degrade requirement. -/
theorem detect_null_vs_short_landmarks :
    GestureDetector.detect ratSqrt {} Option.none =
      Option.some (⟨Gesture.none, 0, false, 1/2, Option.none⟩, {}) ∧
    GestureDetector.detect ratSqrt {}
      (Option.some ⟨List.replicate 20 ⟨1/2, 1/2, 0⟩⟩) = Option.none := by
  constructor
  · rfl
  · have h20 : (List.replicate 20 (⟨1/2, 1/2, 0⟩ : Landmark))[20]? = Option.none := rfl
    have hfist : GestureDetector.detectFist ratSqrt
        (List.replicate 20 (⟨1/2, 1/2, 0⟩ : Landmark)) = Option.none := by
      simp only [GestureDetector.detectFist, Option.bind_eq_bind,
        show (List.replicate 20 (⟨1/2, 1/2, 0⟩ : Landmark))[0]? =
          Option.some ⟨1/2, 1/2, 0⟩ from rfl,
        show (List.replicate 20 (⟨1/2, 1/2, 0⟩ : Landmark))[4]? =
          Option.some ⟨1/2, 1/2, 0⟩ from rfl,
        show (List.replicate 20 (⟨1/2, 1/2, 0⟩ : Landmark))[8]? =
          Option.some ⟨1/2, 1/2, 0⟩ from rfl,
        show (List.replicate 20 (⟨1/2, 1/2, 0⟩ : Landmark))[12]? =
          Option.some ⟨1/2, 1/2, 0⟩ from rfl,
        show (List.replicate 20 (⟨1/2, 1/2, 0⟩ : Landmark))[16]? =
          Option.some ⟨1/2, 1/2, 0⟩ from rfl,
        h20, Option.some_bind, Option.none_bind]
    have hpinch : GestureDetector.detectPinch ratSqrt
        (List.replicate 20 (⟨1/2, 1/2, 0⟩ : Landmark)) =
        Option.some ⟨max 0 (min 1 (1 - GestureDetector.calculateDistance ratSqrt
          ⟨1/2, 1/2, 0⟩ ⟨1/2, 1/2, 0⟩ / CONFIG.pinchThreshold)),
          GestureDetector.calculateDistance ratSqrt ⟨1/2, 1/2, 0⟩ ⟨1/2, 1/2, 0⟩⟩ := by
      simp only [GestureDetector.detectPinch, Option.bind_eq_bind,
        show (List.replicate 20 (⟨1/2, 1/2, 0⟩ : Landmark))[4]? =
          Option.some ⟨1/2, 1/2, 0⟩ from rfl,
        show (List.replicate 20 (⟨1/2, 1/2, 0⟩ : Landmark))[8]? =
          Option.some ⟨1/2, 1/2, 0⟩ from rfl,
        Option.some_bind, Option.pure_def]
    simp only [GestureDetector.detect, Option.bind_eq_bind, hpinch, hfist,
      Option.some_bind, Option.none_bind]

/-! ## Detector inversion helpers -/

namespace GestureDetector

/-- A successful detectFist provides all six landmark lookups it performed. -/
lemma detectFist_landmarks {sqrt : ℚ → ℚ} {lms : List Landmark} {fr : FistResult}
    (hf : detectFist sqrt lms = Option.some fr) :
    ∃ w t4 t8 t12 t16 t20, lms[0]? = Option.some w ∧ lms[4]? = Option.some t4 ∧
      lms[8]? = Option.some t8 ∧ lms[12]? = Option.some t12 ∧
      lms[16]? = Option.some t16 ∧ lms[20]? = Option.some t20 := by
  simp only [detectFist, Option.bind_eq_bind, Option.bind_eq_some, Option.pure_def,
    Option.some.injEq] at hf
  obtain ⟨w, hw, t4, h4, t8, h8, t12, h12, t16, h16, t20, h20, -⟩ := hf
  exact ⟨w, t4, t8, t12, t16, t20, hw, h4, h8, h12, h16, h20⟩

/-- detectSpread succeeds whenever its four lookups succeed. -/
lemma detectSpread_some (sqrt : ℚ → ℚ) {lms : List Landmark}
    {t8 t12 t16 t20 : Landmark} (h8 : lms[8]? = Option.some t8)
    (h12 : lms[12]? = Option.some t12) (h16 : lms[16]? = Option.some t16)
    (h20 : lms[20]? = Option.some t20) :
    ∃ sr, detectSpread sqrt lms = Option.some sr :=
  ⟨_, by
    simp only [detectSpread, Option.bind_eq_bind, h8, h12, h16, h20,
      Option.some_bind, Option.pure_def]
    rfl⟩

/-- detectOpen succeeds whenever its two lookups succeed. -/
lemma detectOpen_some (sqrt : ℚ → ℚ) {lms : List Landmark} {w t12 : Landmark}
    (hw : lms[0]? = Option.some w) (h12 : lms[12]? = Option.some t12)
    (fc pc : ℚ) : ∃ orr, detectOpen sqrt lms fc pc = Option.some orr :=
  ⟨_, by
    simp only [detectOpen, Option.bind_eq_bind, hw, h12,
      Option.some_bind, Option.pure_def]
    rfl⟩

end GestureDetector

/-! ## Claim C4: pinch pre-empts fist -/

/-- C4: whenever both the pinch and the fist confidence exceed one half, the
priority cascade resolves to Pinch, never ClosedFist. -/
theorem detect_pinch_priority (sqrt : ℚ → ℚ) (d : Detector) (obs : HandData)
    (pr : GestureDetector.PinchResult) (fr : GestureDetector.FistResult)
    (hp : GestureDetector.detectPinch sqrt obs.landmarks = Option.some pr)
    (hpc : 1/2 < pr.confidence)
    (hf : GestureDetector.detectFist sqrt obs.landmarks = Option.some fr)
    (_hfc : 1/2 < fr.confidence) :
    ∃ gs d', GestureDetector.detect sqrt d (Option.some obs) = Option.some (gs, d') ∧
      gs.gesture = Gesture.pinch := by
  obtain ⟨w, t4, t8, t12, t16, t20, hw, h4, h8, h12, h16, h20⟩ :=
    GestureDetector.detectFist_landmarks hf
  obtain ⟨sr, hs⟩ := GestureDetector.detectSpread_some sqrt h8 h12 h16 h20
  obtain ⟨orr, ho⟩ := GestureDetector.detectOpen_some sqrt hw h12
    fr.confidence pr.confidence
  simp only [GestureDetector.detect, Option.bind_eq_bind, hp, hf, hs, ho,
    Option.some_bind]
  rw [if_pos hpc]
  exact ⟨_, _, rfl, rfl⟩

/-- The all-centered hand used as a concrete witness configuration. -/
def lmC : Landmark := ⟨1/2, 1/2, 0⟩

/-- Observation whose 21 landmarks coincide at the frame centre. -/
def obsAllCenter : HandData := ⟨List.replicate 21 lmC⟩

/-- Witness for C4: with all landmarks coincident both the pinch and the fist
confidence are 1, and detect resolves to Pinch. -/
theorem detect_pinch_priority_witness :
    (GestureDetector.detectPinch ratSqrt obsAllCenter.landmarks =
        Option.some ⟨1, 0⟩ ∧ (1 : ℚ)/2 < 1 ∧
      GestureDetector.detectFist ratSqrt obsAllCenter.landmarks =
        Option.some ⟨1, 0⟩) ∧
    ∃ gs d', GestureDetector.detect ratSqrt {} (Option.some obsAllCenter) =
      Option.some (gs, d') ∧ gs.gesture = Gesture.pinch := by
  have hp : GestureDetector.detectPinch ratSqrt obsAllCenter.landmarks =
      Option.some ⟨1, 0⟩ := by
    simp [GestureDetector.detectPinch, obsAllCenter,
      show (List.replicate 21 lmC)[4]? = Option.some lmC from rfl,
      show (List.replicate 21 lmC)[8]? = Option.some lmC from rfl,
      GestureDetector.calculateDistance, lmC, CONFIG.pinchThreshold, ratSqrt_zero]
  have hf : GestureDetector.detectFist ratSqrt obsAllCenter.landmarks =
      Option.some ⟨1, 0⟩ := by
    simp [GestureDetector.detectFist, obsAllCenter,
      show (List.replicate 21 lmC)[0]? = Option.some lmC from rfl,
      show (List.replicate 21 lmC)[4]? = Option.some lmC from rfl,
      show (List.replicate 21 lmC)[8]? = Option.some lmC from rfl,
      show (List.replicate 21 lmC)[12]? = Option.some lmC from rfl,
      show (List.replicate 21 lmC)[16]? = Option.some lmC from rfl,
      show (List.replicate 21 lmC)[20]? = Option.some lmC from rfl,
      GestureDetector.calculateDistance, lmC, CONFIG.fistThreshold, ratSqrt_zero]
  exact ⟨⟨hp, by norm_num, hf⟩,
    detect_pinch_priority ratSqrt {} obsAllCenter ⟨1, 0⟩ ⟨1, 0⟩
      hp (by norm_num) hf (by norm_num)⟩

/-! ## Claim C5: exact-threshold configurations do not match -/

/-- C5: a pinch distance exactly equal to pinchThreshold yields confidence 0
and no Pinch classification; more generally a confidence of exactly one half
never matches its gesture (the comparisons are strict), so classification
falls through to the lower-priority gestures. -/
theorem detect_threshold_strict (sqrt : ℚ → ℚ) (d : Detector) (obs : HandData)
    (pr : GestureDetector.PinchResult) (fr : GestureDetector.FistResult)
    (sr : GestureDetector.SpreadResult) (orr : GestureDetector.OpenResult)
    (gs : GestureState) (d' : Detector)
    (hp : GestureDetector.detectPinch sqrt obs.landmarks = Option.some pr)
    (hf : GestureDetector.detectFist sqrt obs.landmarks = Option.some fr)
    (hs : GestureDetector.detectSpread sqrt obs.landmarks = Option.some sr)
    (ho : GestureDetector.detectOpen sqrt obs.landmarks fr.confidence pr.confidence =
      Option.some orr)
    (hdet : GestureDetector.detect sqrt d (Option.some obs) = Option.some (gs, d')) :
    (pr.distance = CONFIG.pinchThreshold →
      pr.confidence = 0 ∧ gs.gesture ≠ Gesture.pinch) ∧
    (pr.confidence = 1/2 → gs.gesture ≠ Gesture.pinch) ∧
    (fr.confidence = 1/2 → gs.gesture ≠ Gesture.closedFist) ∧
    (sr.confidence = 1/2 → gs.gesture ≠ Gesture.spreadFingers) ∧
    (orr.confidence = 1/2 → gs.gesture ≠ Gesture.openHand) := by
  have hconf : pr.distance = CONFIG.pinchThreshold → pr.confidence = 0 := by
    intro hdist
    simp only [GestureDetector.detectPinch, Option.bind_eq_bind, Option.bind_eq_some,
      Option.pure_def, Option.some.injEq] at hp
    obtain ⟨t4, h4, t8, h8, hpr⟩ := hp
    have hd : GestureDetector.calculateDistance sqrt t4 t8 = pr.distance := by
      rw [← hpr]
    rw [← hpr, hd, hdist]
    norm_num [CONFIG.pinchThreshold]
  simp only [GestureDetector.detect, Option.bind_eq_bind, hp, hf, hs, ho,
    Option.some_bind] at hdet
  split at hdet
  · rename_i hcond
    simp only [Option.pure_def, Option.some.injEq, Prod.mk.injEq] at hdet
    obtain ⟨hgs, -⟩ := hdet
    subst hgs
    refine ⟨?_, ?_, ?_, ?_, ?_⟩
    · intro hdist
      exact absurd hcond (by rw [hconf hdist]; norm_num)
    · intro hc; rw [hc] at hcond; exact absurd hcond (lt_irrefl _)
    · intro _; simp
    · intro _; simp
    · intro _; simp
  · rename_i hc1
    split at hdet
    · simp only [Option.bind_eq_some, Option.pure_def, Option.some.injEq,
        Prod.mk.injEq] at hdet
      obtain ⟨w, hw, hgs, -⟩ := hdet
      subst hgs
      rename_i hcond
      refine ⟨fun hdist => ⟨hconf hdist, by simp⟩, fun _ => by simp, ?_, fun _ => by simp,
        fun _ => by simp⟩
      intro hc; rw [hc] at hcond; exact absurd hcond (lt_irrefl _)
    · rename_i hc2
      split at hdet
      · simp only [Option.pure_def, Option.some.injEq, Prod.mk.injEq] at hdet
        obtain ⟨hgs, -⟩ := hdet
        subst hgs
        rename_i hcond
        refine ⟨fun hdist => ⟨hconf hdist, by simp⟩, fun _ => by simp, fun _ => by simp,
          ?_, fun _ => by simp⟩
        intro hc; rw [hc] at hcond; exact absurd hcond (lt_irrefl _)
      · rename_i hc3
        split at hdet
        · simp only [Option.pure_def, Option.some.injEq, Prod.mk.injEq] at hdet
          obtain ⟨hgs, -⟩ := hdet
          subst hgs
          rename_i hcond
          refine ⟨fun hdist => ⟨hconf hdist, by simp⟩, fun _ => by simp, fun _ => by simp,
            fun _ => by simp, ?_⟩
          intro hc; rw [hc] at hcond; exact absurd hcond (lt_irrefl _)
        · simp only [Option.pure_def, Option.some.injEq, Prod.mk.injEq] at hdet
          obtain ⟨hgs, -⟩ := hdet
          subst hgs
          exact ⟨fun hdist => ⟨hconf hdist, by simp⟩, fun _ => by simp, fun _ => by simp,
            fun _ => by simp, fun _ => by simp⟩

/-- Concrete square-root value used by the exact-threshold witness. -/
lemma ratSqrt_inv400 : ratSqrt (1/400) = 1/20 := by
  rw [show (1/400 : ℚ) = (1/20) ^ 2 by norm_num]
  exact ratSqrt_sq _ (by norm_num)

/-- Concrete square-root value used by the fist-depth witness. -/
lemma ratSqrt_9e4 : ratSqrt (9/10000) = 3/100 := by
  rw [show (9/10000 : ℚ) = (3/100) ^ 2 by norm_num]
  exact ratSqrt_sq _ (by norm_num)

/-- Index tip displaced horizontally by exactly pinchThreshold. -/
def lmP : Landmark := ⟨11/20, 1/2, 0⟩

/-- Observation whose thumb-to-index distance is exactly pinchThreshold. -/
def obsPinchEdge : HandData := ⟨(List.replicate 21 lmC).set 8 lmP⟩

lemma obsPinchEdge_pinch : GestureDetector.detectPinch ratSqrt obsPinchEdge.landmarks =
    Option.some ⟨0, 1/20⟩ := by
  have h4 : obsPinchEdge.landmarks[4]? = Option.some lmC := rfl
  have h8 : obsPinchEdge.landmarks[8]? = Option.some lmP := rfl
  simp only [GestureDetector.detectPinch, Option.bind_eq_bind, h4, h8,
    Option.some_bind, Option.pure_def, Option.some.injEq]
  norm_num [GestureDetector.calculateDistance, lmC, lmP, CONFIG.pinchThreshold,
    ratSqrt_inv400]

lemma obsPinchEdge_fist : GestureDetector.detectFist ratSqrt obsPinchEdge.landmarks =
    Option.some ⟨7/8, 1/100⟩ := by
  have h0 : obsPinchEdge.landmarks[0]? = Option.some lmC := rfl
  have h4 : obsPinchEdge.landmarks[4]? = Option.some lmC := rfl
  have h8 : obsPinchEdge.landmarks[8]? = Option.some lmP := rfl
  have h12 : obsPinchEdge.landmarks[12]? = Option.some lmC := rfl
  have h16 : obsPinchEdge.landmarks[16]? = Option.some lmC := rfl
  have h20 : obsPinchEdge.landmarks[20]? = Option.some lmC := rfl
  simp only [GestureDetector.detectFist, Option.bind_eq_bind, h0, h4, h8, h12, h16, h20,
    Option.some_bind, Option.pure_def, Option.some.injEq]
  norm_num [GestureDetector.calculateDistance, lmC, lmP, CONFIG.fistThreshold,
    ratSqrt_inv400, ratSqrt_zero]

lemma obsPinchEdge_spread : GestureDetector.detectSpread ratSqrt obsPinchEdge.landmarks =
    Option.some ⟨0, 0⟩ := by
  have h8 : obsPinchEdge.landmarks[8]? = Option.some lmP := rfl
  have h12 : obsPinchEdge.landmarks[12]? = Option.some lmC := rfl
  have h16 : obsPinchEdge.landmarks[16]? = Option.some lmC := rfl
  have h20 : obsPinchEdge.landmarks[20]? = Option.some lmC := rfl
  simp only [GestureDetector.detectSpread, Option.bind_eq_bind, h8, h12, h16, h20,
    Option.some_bind, Option.pure_def, Option.some.injEq]
  norm_num [GestureDetector.calculateDistance, lmC, lmP, CONFIG.spreadThreshold,
    ratSqrt_inv400, ratSqrt_zero]

lemma obsPinchEdge_open : GestureDetector.detectOpen ratSqrt obsPinchEdge.landmarks
    (7/8) 0 = Option.some ⟨9/32⟩ := by
  have h0 : obsPinchEdge.landmarks[0]? = Option.some lmC := rfl
  have h12 : obsPinchEdge.landmarks[12]? = Option.some lmC := rfl
  simp only [GestureDetector.detectOpen, Option.bind_eq_bind, h0, h12,
    Option.some_bind, Option.pure_def, Option.some.injEq]
  norm_num [GestureDetector.calculateDistance, lmC, ratSqrt_zero]

lemma obsPinchEdge_detect : GestureDetector.detect ratSqrt {}
    (Option.some obsPinchEdge) =
    Option.some (⟨Gesture.closedFist, 7/8, true, 1,
      Option.some { fist := Option.some (1/100) }⟩,
      ⟨Gesture.closedFist, [Gesture.closedFist]⟩) := by
  have h0 : obsPinchEdge.landmarks[0]? = Option.some lmC := rfl
  simp only [GestureDetector.detect, Option.bind_eq_bind, obsPinchEdge_pinch,
    obsPinchEdge_fist, obsPinchEdge_spread, obsPinchEdge_open, Option.some_bind, h0]
  norm_num [GestureDetector.updateHistory, lmC, CONFIG.depthSensitivity]

/-- Witness for C5: with the thumb-to-index distance exactly at the threshold
the pinch confidence is 0 and classification falls through (here to the
closed fist). -/
theorem detect_threshold_strict_witness :
    ((⟨0, 1/20⟩ : GestureDetector.PinchResult).distance = CONFIG.pinchThreshold) ∧
    ((⟨0, 1/20⟩ : GestureDetector.PinchResult).confidence = 0 ∧
      Gesture.closedFist ≠ Gesture.pinch) := by
  have h := detect_threshold_strict ratSqrt {} obsPinchEdge ⟨0, 1/20⟩ ⟨7/8, 1/100⟩
    ⟨0, 0⟩ ⟨9/32⟩ ⟨Gesture.closedFist, 7/8, true, 1,
      Option.some { fist := Option.some (1/100) }⟩
    ⟨Gesture.closedFist, [Gesture.closedFist]⟩
    obsPinchEdge_pinch obsPinchEdge_fist obsPinchEdge_spread obsPinchEdge_open
    obsPinchEdge_detect
  have hdist : (⟨0, 1/20⟩ : GestureDetector.PinchResult).distance =
      CONFIG.pinchThreshold := by norm_num [CONFIG.pinchThreshold]
  exact ⟨hdist, h.1 hdist⟩

/-! ## Claim C7: depth mapping in the fist branch -/

/-- C7: when detect resolves ClosedFist the returned depth is the clamped
product of the inverted wrist height with depthSensitivity, the multiplier
being applied before clamping; at the frame top the depth saturates at 1 and
at the bottom at 0. -/
theorem detect_fist_depth (sqrt : ℚ → ℚ) (d : Detector) (obs : HandData)
    (w : Landmark) (gs : GestureState) (d' : Detector)
    (hw : obs.landmarks[0]? = Option.some w)
    (hdet : GestureDetector.detect sqrt d (Option.some obs) = Option.some (gs, d'))
    (hg : gs.gesture = Gesture.closedFist) :
    gs.depth = max 0 (min 1 ((1 - w.y) * CONFIG.depthSensitivity)) ∧
    (w.y = 0 → gs.depth = 1) ∧ (w.y = 1 → gs.depth = 0) := by
  simp only [GestureDetector.detect, Option.bind_eq_bind, Option.bind_eq_some,
    Option.pure_def, Option.some.injEq] at hdet
  obtain ⟨pr, hp, fr, hf, sr, hs, orr, ho, hdet⟩ := hdet
  split at hdet
  · cases hdet; simp at hg
  · split at hdet
    · simp only [Option.bind_eq_some, Option.some.injEq] at hdet
      obtain ⟨w', hw', hdet⟩ := hdet
      rw [hw] at hw'
      cases hw'
      cases hdet
      refine ⟨rfl, ?_, ?_⟩
      · intro h; simp only [h]; norm_num [CONFIG.depthSensitivity]
      · intro h; simp only [h]; norm_num [CONFIG.depthSensitivity]
    · split at hdet
      · cases hdet; simp at hg
      · split at hdet
        · cases hdet; simp at hg
        · cases hdet; simp at hg

/-- Wrist-height-zero landmark and hand for the depth witness. -/
def lmW : Landmark := ⟨1/2, 0, 0⟩

/-- Index tip slightly offset so the pinch confidence stays at two fifths. -/
def lmI : Landmark := ⟨53/100, 0, 0⟩

/-- Fist-shaped observation held at the top of the frame. -/
def obsFistTop : HandData := ⟨(List.replicate 21 lmW).set 8 lmI⟩

lemma obsFistTop_pinch : GestureDetector.detectPinch ratSqrt obsFistTop.landmarks =
    Option.some ⟨2/5, 3/100⟩ := by
  have h4 : obsFistTop.landmarks[4]? = Option.some lmW := rfl
  have h8 : obsFistTop.landmarks[8]? = Option.some lmI := rfl
  simp only [GestureDetector.detectPinch, Option.bind_eq_bind, h4, h8,
    Option.some_bind, Option.pure_def, Option.some.injEq]
  norm_num [GestureDetector.calculateDistance, lmW, lmI, CONFIG.pinchThreshold,
    ratSqrt_9e4]

lemma obsFistTop_fist : GestureDetector.detectFist ratSqrt obsFistTop.landmarks =
    Option.some ⟨37/40, 3/500⟩ := by
  have h0 : obsFistTop.landmarks[0]? = Option.some lmW := rfl
  have h4 : obsFistTop.landmarks[4]? = Option.some lmW := rfl
  have h8 : obsFistTop.landmarks[8]? = Option.some lmI := rfl
  have h12 : obsFistTop.landmarks[12]? = Option.some lmW := rfl
  have h16 : obsFistTop.landmarks[16]? = Option.some lmW := rfl
  have h20 : obsFistTop.landmarks[20]? = Option.some lmW := rfl
  simp only [GestureDetector.detectFist, Option.bind_eq_bind, h0, h4, h8, h12, h16, h20,
    Option.some_bind, Option.pure_def, Option.some.injEq]
  norm_num [GestureDetector.calculateDistance, lmW, lmI, CONFIG.fistThreshold,
    ratSqrt_9e4, ratSqrt_zero]

lemma obsFistTop_spread : GestureDetector.detectSpread ratSqrt obsFistTop.landmarks =
    Option.some ⟨0, 0⟩ := by
  have h8 : obsFistTop.landmarks[8]? = Option.some lmI := rfl
  have h12 : obsFistTop.landmarks[12]? = Option.some lmW := rfl
  have h16 : obsFistTop.landmarks[16]? = Option.some lmW := rfl
  have h20 : obsFistTop.landmarks[20]? = Option.some lmW := rfl
  simp only [GestureDetector.detectSpread, Option.bind_eq_bind, h8, h12, h16, h20,
    Option.some_bind, Option.pure_def, Option.some.injEq]
  norm_num [GestureDetector.calculateDistance, lmW, lmI, CONFIG.spreadThreshold,
    ratSqrt_9e4, ratSqrt_zero]

lemma obsFistTop_open : GestureDetector.detectOpen ratSqrt obsFistTop.landmarks
    (37/40) (2/5) = Option.some ⟨27/160⟩ := by
  have h0 : obsFistTop.landmarks[0]? = Option.some lmW := rfl
  have h12 : obsFistTop.landmarks[12]? = Option.some lmW := rfl
  simp only [GestureDetector.detectOpen, Option.bind_eq_bind, h0, h12,
    Option.some_bind, Option.pure_def, Option.some.injEq]
  norm_num [GestureDetector.calculateDistance, lmW, ratSqrt_zero]

lemma obsFistTop_detect : GestureDetector.detect ratSqrt {}
    (Option.some obsFistTop) =
    Option.some (⟨Gesture.closedFist, 37/40, true, 1,
      Option.some { fist := Option.some (3/500) }⟩,
      ⟨Gesture.closedFist, [Gesture.closedFist]⟩) := by
  have h0 : obsFistTop.landmarks[0]? = Option.some lmW := rfl
  simp only [GestureDetector.detect, Option.bind_eq_bind, obsFistTop_pinch,
    obsFistTop_fist, obsFistTop_spread, obsFistTop_open, Option.some_bind, h0]
  norm_num [GestureDetector.updateHistory, lmW, CONFIG.depthSensitivity]

/-- Witness for C7: a fist at the top of the frame saturates the depth at 1. -/
theorem detect_fist_depth_witness :
    (obsFistTop.landmarks[0]? = Option.some lmW ∧ lmW.y = 0) ∧
    ((⟨Gesture.closedFist, 37/40, true, 1,
        Option.some { fist := Option.some (3/500) }⟩ : GestureState).depth =
      max 0 (min 1 ((1 - lmW.y) * CONFIG.depthSensitivity)) ∧
      (⟨Gesture.closedFist, 37/40, true, 1,
        Option.some { fist := Option.some (3/500) }⟩ : GestureState).depth = 1) := by
  have h := detect_fist_depth ratSqrt {} obsFistTop lmW
    ⟨Gesture.closedFist, 37/40, true, 1, Option.some { fist := Option.some (3/500) }⟩
    ⟨Gesture.closedFist, [Gesture.closedFist]⟩ rfl obsFistTop_detect rfl
  exact ⟨⟨rfl, rfl⟩, h.1, h.2.1 rfl⟩

/-! ## Claim C1: mode exclusivity across the two accumulators -/

lemma Scene3D.stopDrawing_hasCurrent (sc : Scene3D.State) :
    (Scene3D.stopDrawing sc).hasCurrent = false := by
  unfold Scene3D.stopDrawing
  by_cases h : sc.hasCurrent <;> simp [h]

lemma Scene3D.addPoint_hasCurrent (sqrt : ℚ → ℚ) (x y z : ℚ) (sc : Scene3D.State) :
    (Scene3D.addPoint sqrt x y z sc).hasCurrent = sc.hasCurrent := by
  unfold Scene3D.addPoint
  by_cases h : sc.hasCurrent <;> simp [h]

/-- Once the 3D scene has no current line, one orchestrated frame never opens
one: the only call of Scene3D.startDrawing sits in the 3D drawing branch,
which is unreachable because a pinch frame has just set the mode to 2D. -/
lemma handleHandData_scene_closed (sqrt : ℚ → ℚ) (aspect : ℚ) (s : App)
    (hd : Option HandData) (h : s.scene3D.hasCurrent = false) :
    (App.handleHandData sqrt aspect s hd).scene3D.hasCurrent = false := by
  unfold App.handleHandData
  cases hdet : GestureDetector.detect sqrt s.detector hd with
  | none => exact h
  | some p =>
    obtain ⟨gs, det'⟩ := p
    clear hdet
    cases hd with
    | none =>
      simp only [App.updateDrawing]
      repeat' split
      all_goals simp_all [Scene3D.stopDrawing_hasCurrent]
    | some hdata =>
      cases hge : gs.gesture <;> cases hdraw : gs.isDrawing <;>
        cases hidx : hdata.landmarks[8]? <;>
        simp only [App.updateDrawing, hge, hdraw, hidx, apply_ite App.scene3D,
          apply_ite Scene3D.State.hasCurrent] <;>
        simp [h, Scene3D.stopDrawing_hasCurrent, Scene3D.addPoint_hasCurrent,
          Scene3D.clear]

/-- C1: after any sequence of orchestrated frames, at most one of the two
accumulators holds an open stroke.  In fact the embedded code never opens a
3D stroke at all: the only Scene3D.startDrawing call is guarded by a pinch
gesture, which has just forced the mode to 2D, so the conjunction of the two
open flags is always false. -/
theorem orchestrator_mode_exclusive (sqrt : ℚ → ℚ) (aspect : ℚ)
    (frames : List (Option HandData)) :
    ((App.processFrames sqrt aspect frames).canvas2D.isDrawing &&
      (App.processFrames sqrt aspect frames).scene3D.hasCurrent) = false := by
  have key : ∀ (s : App), s.scene3D.hasCurrent = false →
      (frames.foldl (App.handleHandData sqrt aspect) s).scene3D.hasCurrent = false := by
    induction frames with
    | nil => intro s h; exact h
    | cons f fs ih =>
      intro s h
      exact ih _ (handleHandData_scene_closed sqrt aspect s f h)
  have h := key App.initial rfl
  unfold App.processFrames
  rw [h]
  simp

/-! ## Claim C9: committed points are at least minDistance apart -/

namespace Canvas2D

/-- States of a Canvas2D instance reachable through its public drawing API. -/
inductive Reachable (sqrt : ℚ → ℚ) : State → Prop where
  | init : Reachable sqrt initial
  | start (p : Point2D) {s : State} : Reachable sqrt s → Reachable sqrt (startDrawing p s)
  | draw (p : Point2D) {s : State} : Reachable sqrt s → Reachable sqrt (drawTo sqrt p s)
  | stop {s : State} : Reachable sqrt s → Reachable sqrt (stopDrawing s)
  | wipe {s : State} : Reachable sqrt s → Reachable sqrt (clear s)

/-- Invariant: the open stroke is minDistance-spaced and the last committed
point is the last element of the stroke. -/
lemma reachable_spacing {sqrt : ℚ → ℚ} {s : State} (hr : Reachable sqrt s) :
    List.Chain' (fun a b => CONFIG.minDistance ≤ getDistance sqrt a b) s.smoothedPoints ∧
    (∀ q, s.lastPoint = Option.some q → s.smoothedPoints.getLast? = Option.some q) := by
  induction hr with
  | init => exact ⟨List.chain'_nil, fun q hq => by simp [initial] at hq⟩
  | start p hr ih =>
    refine ⟨List.chain'_singleton p, fun q hq => ?_⟩
    simp only [startDrawing, Option.some.injEq] at hq
    simp [startDrawing, hq]
  | draw p hr ih =>
    unfold drawTo
    split
    · exact ih
    · split
      · exact ih
      · rename_i hdraw last hlast
        simp only
        split
        all_goals
          split
          · exact ih
          · rename_i hgate
            constructor
            · rw [List.chain'_append]
              refine ⟨ih.1, List.chain'_singleton _, ?_⟩
              intro x hx y hy
              rw [ih.2 last hlast] at hx
              simp only [Option.mem_def, Option.some.injEq] at hx
              simp only [List.head?_cons, Option.mem_def, Option.some.injEq] at hy
              subst hx; subst hy
              exact not_lt.mp hgate
            · intro q hq
              simp only [Option.some.injEq] at hq
              subst hq
              simp
  | stop hr ih => exact ⟨List.chain'_nil, fun q hq => by simp [stopDrawing] at hq⟩
  | wipe hr ih => exact ⟨List.chain'_nil, fun q hq => by simp [clear, stopDrawing] at hq⟩

end Canvas2D

namespace NeonLine3D

/-- Per-line invariant: spaced committed points whose last element is the
last committed point. -/
def LineInv (sqrt : ℚ → ℚ) (l : Line) : Prop :=
  List.Chain' (fun a b => CONFIG.minDistance ≤ distanceTo sqrt a b) l.points ∧
  (∀ q, l.lastPoint = Option.some q → l.points.getLast? = Option.some q)

lemma lineInv_start (sqrt : ℚ → ℚ) (p : THREE.Vector3) (l : Line) :
    LineInv sqrt (startDrawing p l) := by
  refine ⟨List.chain'_singleton p, fun q hq => ?_⟩
  simp only [startDrawing, Option.some.injEq] at hq
  simp [startDrawing, hq]

lemma lineInv_add {sqrt : ℚ → ℚ} {l : Line} (p : THREE.Vector3)
    (ih : LineInv sqrt l) : LineInv sqrt (addPoint sqrt p l) := by
  unfold addPoint
  split
  · exact ih
  · split
    · exact ih
    · rename_i hdraw last hlast
      simp only
      split
      · exact ih
      · rename_i hgate
        constructor
        · rw [List.chain'_append]
          refine ⟨ih.1, List.chain'_singleton _, ?_⟩
          intro x hx y hy
          rw [ih.2 last hlast] at hx
          simp only [Option.mem_def, Option.some.injEq] at hx
          simp only [List.head?_cons, Option.mem_def, Option.some.injEq] at hy
          subst hx; subst hy
          exact not_lt.mp hgate
        · intro q hq
          simp only [Option.some.injEq] at hq
          simp [hq]

lemma lineInv_stop {sqrt : ℚ → ℚ} {l : Line} (ih : LineInv sqrt l) :
    LineInv sqrt (stopDrawing l) := by
  refine ⟨ih.1, fun q hq => ?_⟩
  simp [stopDrawing] at hq

end NeonLine3D

/-- Membership is preserved by updateLast when the function preserves the
predicate. -/
lemma updateLast_forall {α : Type} {P : α → Prop} (f : α → α)
    (hf : ∀ x, P x → P (f x)) :
    ∀ (xs : List α), (∀ x ∈ xs, P x) → ∀ x ∈ updateLast f xs, P x := by
  intro xs
  induction xs with
  | nil => intro _ x hx; simp [updateLast] at hx
  | cons a tail ih =>
    intro hall x hx
    cases tail with
    | nil =>
      simp only [updateLast, List.mem_singleton] at hx
      subst hx
      exact hf a (hall a (by simp))
    | cons b rest =>
      simp only [updateLast, List.mem_cons] at hx
      rcases hx with hx | hx
      · subst hx; exact hall _ (List.mem_cons_self _ _)
      · exact ih (fun y hy => hall y (List.mem_cons_of_mem a hy)) x hx

namespace Scene3D

/-- States of a Scene3D instance reachable through its drawing API. -/
inductive ReachableS (sqrt : ℚ → ℚ) : State → Prop where
  | init : ReachableS sqrt initial
  | start (x y z : ℚ) {s : State} : ReachableS sqrt s → ReachableS sqrt (startDrawing x y z s)
  | add (x y z : ℚ) {s : State} : ReachableS sqrt s → ReachableS sqrt (addPoint sqrt x y z s)
  | stop {s : State} : ReachableS sqrt s → ReachableS sqrt (stopDrawing s)
  | wipe {s : State} : ReachableS sqrt s → ReachableS sqrt (clear s)

/-- Every line of a reachable scene satisfies the per-line invariant. -/
lemma reachable_lineInv {sqrt : ℚ → ℚ} {sc : State} (hr : ReachableS sqrt sc) :
    ∀ l ∈ sc.lines, NeonLine3D.LineInv sqrt l := by
  induction hr with
  | init => intro l hl; simp [initial] at hl
  | start x y z hr ih =>
    intro l hl
    simp only [startDrawing, List.mem_append, List.mem_singleton] at hl
    rcases hl with hl | hl
    · exact ih l hl
    · subst hl; exact NeonLine3D.lineInv_start sqrt _ _
  | add x y z hr ih =>
    intro l hl
    unfold addPoint at hl
    split at hl
    · exact updateLast_forall _ (fun x hx => NeonLine3D.lineInv_add _ hx) _ ih l hl
    · exact ih l hl
  | stop hr ih =>
    intro l hl
    unfold stopDrawing at hl
    split at hl
    · exact updateLast_forall _ (fun x hx => NeonLine3D.lineInv_stop hx) _ ih l hl
    · exact ih l hl
  | wipe hr ih => intro l hl; simp [clear] at hl

end Scene3D

/-- C9: in every stroke held by either accumulator, consecutive committed
points are at least minDistance apart: startDrawing establishes the
single-point base case and every successful commit appends at distance at
least minDistance from the previous last committed point. -/
theorem stroke_min_spacing (sqrt : ℚ → ℚ) (s : Canvas2D.State) (sc : Scene3D.State)
    (hs : Canvas2D.Reachable sqrt s) (hsc : Scene3D.ReachableS sqrt sc) :
    List.Chain' (fun a b => CONFIG.minDistance ≤ Canvas2D.getDistance sqrt a b)
      s.smoothedPoints ∧
    ∀ l ∈ sc.lines,
      List.Chain' (fun a b => CONFIG.minDistance ≤ NeonLine3D.distanceTo sqrt a b)
        l.points :=
  ⟨(Canvas2D.reachable_spacing hs).1,
   fun l hl => ((Scene3D.reachable_lineInv hsc) l hl).1⟩

/-- Witness for C9 on concretely reached two-point strokes. -/
theorem stroke_min_spacing_witness :
    (Canvas2D.Reachable ratSqrt
        (Canvas2D.drawTo ratSqrt ⟨150, 100⟩
          (Canvas2D.startDrawing ⟨100, 100⟩ Canvas2D.initial)) ∧
      Scene3D.ReachableS ratSqrt
        (Scene3D.addPoint ratSqrt 1 0 0 (Scene3D.startDrawing 0 0 0 Scene3D.initial))) ∧
    (List.Chain' (fun a b => CONFIG.minDistance ≤ Canvas2D.getDistance ratSqrt a b)
        (Canvas2D.drawTo ratSqrt ⟨150, 100⟩
          (Canvas2D.startDrawing ⟨100, 100⟩ Canvas2D.initial)).smoothedPoints ∧
      ∀ l ∈ (Scene3D.addPoint ratSqrt 1 0 0
          (Scene3D.startDrawing 0 0 0 Scene3D.initial)).lines,
        List.Chain' (fun a b => CONFIG.minDistance ≤ NeonLine3D.distanceTo ratSqrt a b)
          l.points) := by
  have r2 : Canvas2D.Reachable ratSqrt
      (Canvas2D.drawTo ratSqrt ⟨150, 100⟩
        (Canvas2D.startDrawing ⟨100, 100⟩ Canvas2D.initial)) :=
    Canvas2D.Reachable.draw _ (Canvas2D.Reachable.start _ Canvas2D.Reachable.init)
  have r3 : Scene3D.ReachableS ratSqrt
      (Scene3D.addPoint ratSqrt 1 0 0 (Scene3D.startDrawing 0 0 0 Scene3D.initial)) :=
    Scene3D.ReachableS.add _ _ _ (Scene3D.ReachableS.start _ _ _ Scene3D.ReachableS.init)
  exact ⟨⟨r2, r3⟩, stroke_min_spacing ratSqrt _ _ r2 r3⟩

/-! ## Claim C2: the two addPoint pipelines

The specification describes one shared smoothing pipeline for both
accumulators.  The definitions below transcribe that pipeline from the
specification's words (they are the refinement side, deliberately not
derived from the source) so the source-derived accumulators can be compared
against them. -/

namespace SpecPipeline

/-- Spec pipeline, step b: arithmetic mean of the buffered points. -/
def mean2 (buf : List Point2D) : Point2D :=
  ⟨(buf.map Point2D.x).sum / (buf.length : ℚ), (buf.map Point2D.y).sum / (buf.length : ℚ)⟩

/-- Spec pipeline, step c: linear interpolation a + (b - a) * t. -/
def lerp2 (a b : Point2D) (t : ℚ) : Point2D :=
  ⟨a.x + (b.x - a.x) * t, a.y + (b.y - a.y) * t⟩

/-- Spec pipeline, step d: weighted-recency blend of the last three buffered
points with weights 0.1, 0.3, 0.6, oldest to newest. -/
def weighted2 : List Point2D → Point2D → Point2D
  | [a, b, c], _ => ⟨a.x/10 + 3*b.x/10 + 6*c.x/10, a.y/10 + 3*b.y/10 + 6*c.y/10⟩
  | _, dflt => dflt

/-- The candidate point the specification prescribes for a post-push buffer
and last committed point: mean, lerp by smoothingFactor from the last
committed point, and at full capacity 5 the weighted blend pulled toward the
interpolated point by 0.7. -/
def candidate2D (buf : List Point2D) (last : Point2D) : Point2D :=
  let avg := mean2 buf
  let interp := lerp2 last avg CONFIG.smoothingFactor
  if buf.length = 5 then
    lerp2 (weighted2 (buf.drop (buf.length - 3)) interp) interp (7/10)
  else interp

/-- Three-dimensional mean, as the claim prescribes for the 3D accumulator. -/
def mean3 (buf : List THREE.Vector3) : THREE.Vector3 :=
  ⟨(buf.map THREE.Vector3.x).sum / (buf.length : ℚ),
   (buf.map THREE.Vector3.y).sum / (buf.length : ℚ),
   (buf.map THREE.Vector3.z).sum / (buf.length : ℚ)⟩

/-- Three-dimensional linear interpolation a + (b - a) * t. -/
def lerp3 (a b : THREE.Vector3) (t : ℚ) : THREE.Vector3 :=
  ⟨a.x + (b.x - a.x) * t, a.y + (b.y - a.y) * t, a.z + (b.z - a.z) * t⟩

/-- Three-dimensional weighted-recency blend over the last three points. -/
def weighted3 : List THREE.Vector3 → THREE.Vector3 → THREE.Vector3
  | [a, b, c], _ => ⟨a.x/10 + 3*b.x/10 + 6*c.x/10, a.y/10 + 3*b.y/10 + 6*c.y/10,
      a.z/10 + 3*b.z/10 + 6*c.z/10⟩
  | _, dflt => dflt

/-- The candidate point the claim prescribes for the 3D accumulator, namely
the same buffered pipeline in dimension three. -/
def candidate3D (buf : List THREE.Vector3) (last : THREE.Vector3) : THREE.Vector3 :=
  let avg := mean3 buf
  let interp := lerp3 last avg CONFIG.smoothingFactor
  if buf.length = 5 then
    lerp3 (weighted3 (buf.drop (buf.length - 3)) interp) interp (7/10)
  else interp

end SpecPipeline

/-- The foldl pair summation of calculateMovingAverage equals componentwise
map sums. -/
lemma foldl_sum_eq (buf : List Point2D) (init : Point2D) :
    buf.foldl (fun acc p => Point2D.mk (acc.x + p.x) (acc.y + p.y)) init =
    ⟨init.x + (buf.map Point2D.x).sum, init.y + (buf.map Point2D.y).sum⟩ := by
  induction buf generalizing init with
  | nil => simp
  | cons a tail ih =>
    simp only [List.foldl_cons, List.map_cons, List.sum_cons, ih]
    congr 1 <;> ring

/-- The source moving average coincides with the specification mean. -/
lemma movingAverage_eq_mean (buf : List Point2D) :
    Canvas2D.calculateMovingAverage buf = SpecPipeline.mean2 buf := by
  unfold Canvas2D.calculateMovingAverage SpecPipeline.mean2
  rw [foldl_sum_eq]
  simp

/-- The source smoothing chain of Canvas2D equals the specification pipeline
on every buffer a drawTo call can produce (length between 2 and 5). -/
lemma applySmoothing_eq_candidate (buf : List Point2D) (last p : Point2D)
    (h2 : 2 ≤ buf.length) (h5 : buf.length ≤ 5) :
    Canvas2D.applySmoothing buf last p = SpecPipeline.candidate2D buf last := by
  unfold Canvas2D.applySmoothing SpecPipeline.candidate2D
  have hne : ¬ buf.length = 1 := by omega
  rw [if_neg hne]
  simp only [movingAverage_eq_mean]
  by_cases hfull : buf.length = 5
  · have hge : buf.length ≥ 5 := by omega
    rw [if_pos hge, if_pos hfull]
    unfold Canvas2D.cubicInterpolate
    have hlt : ¬ buf.length < 3 := by omega
    rw [if_neg hlt]
    have hdlen : (buf.drop (buf.length - 3)).length = 3 := by
      rw [List.length_drop]; omega
    obtain ⟨a, b, c, habc⟩ := List.length_eq_three.mp hdlen
    simp only [habc, List.length_cons, List.length_nil, List.range_succ,
      List.range_zero, List.map_append, List.map_cons, List.map_nil,
      List.zip_cons_cons, List.zip_nil_right, List.sum_cons, List.sum_nil,
      List.nil_append, List.cons_append, List.getD, SpecPipeline.weighted2,
      SpecPipeline.lerp2, Canvas2D.interpolate]
    norm_num
    exact ⟨by ring, by ring⟩
  · rw [if_neg (by omega : ¬ buf.length ≥ 5), if_neg hfull]
    rfl

/-- Concrete square-root value for the 3D pipeline counterexample. -/
lemma ratSqrt_49e2 : ratSqrt (49/100) = 7/10 := by
  rw [show (49/100 : ℚ) = (7/10) ^ 2 by norm_num]
  exact ratSqrt_sq _ (by norm_num)

/-- Counterexample for C2 as stated: on the very first 3D addPoint after
startDrawing at the origin with raw point (1,0,0), the code commits
(0.7,0,0), the plain lerp by smoothingFactor, whereas the claimed buffered
pipeline would commit (0.35,0,0): the 3D accumulator does not run the
2D smoothing pipeline. -/
theorem neon_addPoint_pipeline_cex :
    (NeonLine3D.addPoint ratSqrt ⟨1, 0, 0⟩
      (NeonLine3D.startDrawing ⟨0, 0, 0⟩ NeonLine3D.fresh)).points =
      [⟨0, 0, 0⟩, ⟨7/10, 0, 0⟩] ∧
    SpecPipeline.candidate3D [⟨0, 0, 0⟩, ⟨1, 0, 0⟩] ⟨0, 0, 0⟩ = ⟨7/20, 0, 0⟩ ∧
    (⟨7/10, 0, 0⟩ : THREE.Vector3) ≠ ⟨7/20, 0, 0⟩ := by
  refine ⟨?_, ?_, ?_⟩
  · simp only [NeonLine3D.addPoint, NeonLine3D.startDrawing, NeonLine3D.fresh,
      NeonLine3D.interpolate, NeonLine3D.distanceTo]
    norm_num [CONFIG.smoothingFactor, CONFIG.minDistance, ratSqrt_49e2]
  · simp only [SpecPipeline.candidate3D, SpecPipeline.mean3, SpecPipeline.lerp3]
    norm_num [CONFIG.smoothingFactor]
  · intro h
    have := congrArg THREE.Vector3.x h
    norm_num at this

/-- C2 amended: the 2D accumulator's drawTo does follow the claimed buffered
pipeline (capacity-5 FIFO push, mean, lerp by smoothingFactor from the last
committed point, weighted [0.1, 0.3, 0.6] blend pulled by 0.7 toward the
interpolated point at full capacity, then the jitter gate), but the 3D
accumulator's addPoint computes its candidate by the single linear
interpolation from the last committed point toward the raw point by
smoothingFactor, with no buffer, mean, or weighted blend. -/
theorem smoothing_pipeline_amended (sqrt : ℚ → ℚ) :
    (∀ (s : Canvas2D.State) (p last : Point2D), s.isDrawing = true →
      s.lastPoint = Option.some last →
      1 ≤ s.pointBuffer.length → s.pointBuffer.length ≤ 5 →
      Canvas2D.drawTo sqrt p s =
        (let buf := s.pointBuffer ++ [p]
         let buf := if buf.length > 5 then buf.drop 1 else buf
         let cand := SpecPipeline.candidate2D buf last
         if Canvas2D.getDistance sqrt last cand < CONFIG.minDistance
         then { s with pointBuffer := buf }
         else { s with pointBuffer := buf,
                       smoothedPoints := s.smoothedPoints ++ [cand],
                       lastPoint := Option.some cand })) ∧
    (∀ (l : NeonLine3D.Line) (p last : THREE.Vector3), l.isDrawing = true →
      l.lastPoint = Option.some last →
      NeonLine3D.addPoint sqrt p l =
        (let cand := SpecPipeline.lerp3 last p CONFIG.smoothingFactor
         if NeonLine3D.distanceTo sqrt last cand < CONFIG.minDistance then l
         else { l with points := l.points ++ [cand],
                       lastPoint := Option.some cand })) := by
  constructor
  · intro s p last hdraw hlast h1 h5
    unfold Canvas2D.drawTo
    rw [hdraw]
    simp only [Bool.true_eq_false, if_false, hlast]
    have hlen : (s.pointBuffer ++ [p]).length = s.pointBuffer.length + 1 := by
      simp
    by_cases hev : (s.pointBuffer ++ [p]).length > 5
    · rw [if_pos hev,
        applySmoothing_eq_candidate _ last p (by rw [List.length_drop]; omega)
          (by rw [List.length_drop]; omega)]
    · rw [if_neg hev,
        applySmoothing_eq_candidate _ last p (by omega) (by omega)]
  · intro l p last hdraw hlast
    unfold NeonLine3D.addPoint
    rw [hdraw]
    simp only [Bool.true_eq_false, if_false, hlast, NeonLine3D.interpolate,
      SpecPipeline.lerp3]

/-- Concrete square-root value for the amended-pipeline witness. -/
lemma ratSqrt_1225o4 : ratSqrt (1225/4) = 35/2 := by
  rw [show (1225/4 : ℚ) = (35/2) ^ 2 by norm_num]
  exact ratSqrt_sq _ (by norm_num)

/-- Witness for the amended C2: at a freshly started 2D stroke and a freshly
started 3D line, the hypotheses hold concretely and both accumulators step
to exactly the prescribed candidate-and-gate form. -/
theorem smoothing_pipeline_amended_witness :
    ((Canvas2D.startDrawing ⟨100, 100⟩ Canvas2D.initial).isDrawing = true ∧
      (Canvas2D.startDrawing ⟨100, 100⟩ Canvas2D.initial).lastPoint =
        Option.some ⟨100, 100⟩ ∧
      (NeonLine3D.startDrawing ⟨0, 0, 0⟩ NeonLine3D.fresh).isDrawing = true) ∧
    Canvas2D.drawTo ratSqrt ⟨150, 100⟩
        (Canvas2D.startDrawing ⟨100, 100⟩ Canvas2D.initial) =
      (let s := Canvas2D.startDrawing ⟨100, 100⟩ Canvas2D.initial
       let buf := s.pointBuffer ++ [⟨150, 100⟩]
       let buf := if buf.length > 5 then buf.drop 1 else buf
       let cand := SpecPipeline.candidate2D buf ⟨100, 100⟩
       if Canvas2D.getDistance ratSqrt ⟨100, 100⟩ cand < CONFIG.minDistance
       then { s with pointBuffer := buf }
       else { s with pointBuffer := buf,
                     smoothedPoints := s.smoothedPoints ++ [cand],
                     lastPoint := Option.some cand }) ∧
    NeonLine3D.addPoint ratSqrt ⟨1, 0, 0⟩
        (NeonLine3D.startDrawing ⟨0, 0, 0⟩ NeonLine3D.fresh) =
      (let l := NeonLine3D.startDrawing ⟨0, 0, 0⟩ NeonLine3D.fresh
       let cand := SpecPipeline.lerp3 ⟨0, 0, 0⟩ ⟨1, 0, 0⟩ CONFIG.smoothingFactor
       if NeonLine3D.distanceTo ratSqrt ⟨0, 0, 0⟩ cand < CONFIG.minDistance then l
       else { l with points := l.points ++ [cand],
                     lastPoint := Option.some cand }) :=
  ⟨⟨rfl, rfl, rfl⟩,
   (smoothing_pipeline_amended ratSqrt).1
     (Canvas2D.startDrawing ⟨100, 100⟩ Canvas2D.initial) ⟨150, 100⟩ ⟨100, 100⟩
     rfl rfl (by decide) (by decide),
   (smoothing_pipeline_amended ratSqrt).2
     (NeonLine3D.startDrawing ⟨0, 0, 0⟩ NeonLine3D.fresh) ⟨1, 0, 0⟩ ⟨0, 0, 0⟩
     rfl rfl⟩

/-! ## Claim C6: the jitter gate and stationary input

Squared-distance helpers and ball-convexity lemmas used to reason about the
minimum-distance gate without committing to a concrete square root. -/

/-- Squared Euclidean distance in the plane. -/
def dSq2 (a b : Point2D) : ℚ := (b.x - a.x) ^ 2 + (b.y - a.y) ^ 2

/-- Squared Euclidean distance in space. -/
def dSq3 (a b : THREE.Vector3) : ℚ :=
  (b.x - a.x) ^ 2 + (b.y - a.y) ^ 2 + (b.z - a.z) ^ 2

lemma dSq2_nonneg (a b : Point2D) : 0 ≤ dSq2 a b := by unfold dSq2; positivity

lemma getDistance_eq_sqrt_dSq2 (sqrt : ℚ → ℚ) (a b : Point2D) :
    Canvas2D.getDistance sqrt a b = sqrt (dSq2 a b) := by
  unfold Canvas2D.getDistance dSq2
  congr 1
  ring

lemma distanceTo_eq_sqrt_dSq3 (sqrt : ℚ → ℚ) (a b : THREE.Vector3) :
    NeonLine3D.distanceTo sqrt a b = sqrt (dSq3 a b) := by
  unfold NeonLine3D.distanceTo dSq3
  congr 1
  ring

/-- A lower-approximating square root maps a strict squared-radius bound to a
strict radius bound. -/
lemma sqrt_lt_radius {sqrt : ℚ → ℚ} (hs : SqrtLB sqrt) {d r : ℚ}
    (hd : 0 ≤ d) (hr : 0 < r) (h : d < r ^ 2) : sqrt d < r := by
  obtain ⟨h0, hsq⟩ := hs d hd
  nlinarith

/-- Linear interpolation keeps the open squared ball. -/
lemma interpolate_ball {c a b : Point2D} {t r2 : ℚ} (ht0 : 0 ≤ t) (ht1 : t ≤ 1)
    (ha : dSq2 c a < r2) (hb : dSq2 c b < r2) :
    dSq2 c (Canvas2D.interpolate a b t) < r2 := by
  unfold dSq2 Canvas2D.interpolate at *
  simp only at *
  have h1t : (0 : ℚ) ≤ 1 - t := by linarith
  rcases eq_or_lt_of_le ht0 with h0 | h0
  · rw [← h0]; nlinarith [ha]
  · nlinarith [mul_nonneg (mul_nonneg h0.le h1t) (sq_nonneg (a.x - b.x)),
      mul_nonneg (mul_nonneg h0.le h1t) (sq_nonneg (a.y - b.y)),
      mul_nonneg h1t (sub_pos.mpr ha).le,
      mul_pos h0 (sub_pos.mpr hb)]

/-- The arithmetic mean splits off its head as a linear interpolation. -/
lemma mean2_cons (a : Point2D) (l : List Point2D) (hne : l ≠ []) :
    SpecPipeline.mean2 (a :: l) =
    Canvas2D.interpolate (SpecPipeline.mean2 l) a (1 / ((l.length : ℚ) + 1)) := by
  have hn : (0 : ℚ) < (l.length : ℚ) := by
    have := List.length_pos.mpr hne
    exact_mod_cast this
  unfold SpecPipeline.mean2 Canvas2D.interpolate
  simp only [List.map_cons, List.sum_cons, List.length_cons]
  congr 1 <;>
  · push_cast
    field_simp
    ring

/-- The arithmetic mean of points in an open squared ball stays in it. -/
lemma mean2_ball {c : Point2D} {r2 : ℚ} :
    ∀ (l : List Point2D), l ≠ [] → (∀ q ∈ l, dSq2 c q < r2) →
      dSq2 c (SpecPipeline.mean2 l) < r2 := by
  intro l
  induction l with
  | nil => intro h; exact absurd rfl h
  | cons a tail ih =>
    intro _ hball
    cases htail : tail with
    | nil =>
      have : SpecPipeline.mean2 [a] = a := by
        unfold SpecPipeline.mean2
        simp
      rw [this]
      exact hball a (by simp)
    | cons b rest =>
      rw [← htail, mean2_cons a tail (by rw [htail]; simp)]
      have hn : (0 : ℚ) < (tail.length : ℚ) := by
        have : tail ≠ [] := by rw [htail]; simp
        exact_mod_cast List.length_pos.mpr this
      refine interpolate_ball (by positivity) ?_ ?_ (hball a (by simp))
      · rw [div_le_one (by linarith)]; linarith
      · exact ih (by rw [htail]; simp) (fun q hq => hball q (List.mem_cons_of_mem a hq))

/-- The 0.1, 0.3, 0.6 weighted blend of three ball points stays in the ball. -/
lemma weighted2_ball {c a b d x : Point2D} {r2 : ℚ}
    (ha : dSq2 c a < r2) (hb : dSq2 c b < r2) (hd : dSq2 c d < r2) :
    dSq2 c (SpecPipeline.weighted2 [a, b, d] x) < r2 := by
  unfold dSq2 SpecPipeline.weighted2 at *
  simp only at *
  nlinarith [sq_nonneg (a.x - b.x), sq_nonneg (a.x - d.x), sq_nonneg (b.x - d.x),
    sq_nonneg (a.y - b.y), sq_nonneg (a.y - d.y), sq_nonneg (b.y - d.y),
    sub_pos.mpr ha, sub_pos.mpr hb, sub_pos.mpr hd]

/-- Closed form of cubicInterpolate once the last-three window is known. -/
lemma cubicInterpolate_closed (buf : List Point2D) (x : Point2D)
    (h3 : 3 ≤ buf.length) {a b c : Point2D}
    (habc : buf.drop (buf.length - 3) = [a, b, c]) :
    Canvas2D.cubicInterpolate buf x =
    Canvas2D.interpolate (SpecPipeline.weighted2 [a, b, c] x) x (7/10) := by
  unfold Canvas2D.cubicInterpolate
  rw [if_neg (by omega : ¬ buf.length < 3)]
  simp only [habc, List.length_cons, List.length_nil, List.range_succ, List.range_zero,
    List.map_append, List.map_cons, List.map_nil, List.zip_cons_cons, List.zip_nil_right,
    List.sum_cons, List.sum_nil, List.nil_append, List.cons_append, List.getD,
    SpecPipeline.weighted2, Canvas2D.interpolate]
  norm_num
  exact ⟨by ring, by ring⟩

/-- The full smoothing chain keeps the open squared ball around the last
committed point whenever the whole post-push buffer and the raw point lie in
it. -/
lemma applySmoothing_ball {last p : Point2D} {r2 : ℚ} (buf : List Point2D)
    (hne : buf ≠ []) (hp : dSq2 last p < r2)
    (hball : ∀ q ∈ buf, dSq2 last q < r2) :
    dSq2 last (Canvas2D.applySmoothing buf last p) < r2 := by
  have hr2 : 0 < r2 := lt_of_le_of_lt (dSq2_nonneg last p) hp
  have hself : dSq2 last last < r2 := by
    unfold dSq2
    simpa using hr2
  unfold Canvas2D.applySmoothing
  split
  · exact hp
  · rename_i hlen1
    rw [movingAverage_eq_mean]
    have havg : dSq2 last (SpecPipeline.mean2 buf) < r2 := mean2_ball buf hne hball
    have hinterp : dSq2 last (Canvas2D.interpolate last (SpecPipeline.mean2 buf)
        CONFIG.smoothingFactor) < r2 :=
      interpolate_ball (by norm_num [CONFIG.smoothingFactor])
        (by norm_num [CONFIG.smoothingFactor]) hself havg
    split
    · rename_i h5
      have h3 : 3 ≤ buf.length := by omega
      have hdlen : (buf.drop (buf.length - 3)).length = 3 := by
        rw [List.length_drop]; omega
      obtain ⟨a, b, c, habc⟩ := List.length_eq_three.mp hdlen
      rw [cubicInterpolate_closed buf _ h3 habc]
      have hmem : ∀ q ∈ ([a, b, c] : List Point2D), dSq2 last q < r2 := by
        intro q hq
        have hq' : q ∈ buf.drop (buf.length - 3) := by rw [habc]; exact hq
        exact hball q (List.mem_of_mem_drop hq')
      exact interpolate_ball (by norm_num) (by norm_num)
        (weighted2_ball (hmem a (by simp)) (hmem b (by simp)) (hmem c (by simp)))
        hinterp
    · exact hinterp

/-- Membership in the pushed and possibly evicted buffer stays in the ball. -/
lemma pushEvict_ball {last p : Point2D} {r2 : ℚ} (buf : List Point2D)
    (hball : ∀ q ∈ buf, dSq2 last q < r2) (hp : dSq2 last p < r2) :
    ∀ q ∈ (if (buf ++ [p]).length > 5 then (buf ++ [p]).drop 1 else buf ++ [p]),
      dSq2 last q < r2 := by
  intro q hq
  have hmem : q ∈ buf ++ [p] := by
    split at hq
    · exact List.mem_of_mem_drop hq
    · exact hq
  rcases List.mem_append.mp hmem with h | h
  · exact hball q h
  · rw [List.mem_singleton] at h; subst h; exact hp

/-- One drawTo call on an all-stationary buffer only updates the buffer:
nothing is committed and the last committed point does not move. -/
lemma drawTo_stationary_step (sqrt : ℚ → ℚ) (hs : SqrtLB sqrt)
    (s : Canvas2D.State) (last p : Point2D) (hdraw : s.isDrawing = true)
    (hlast : s.lastPoint = Option.some last)
    (hball : ∀ q ∈ s.pointBuffer, dSq2 last q < CONFIG.minDistance ^ 2)
    (hp : dSq2 last p < CONFIG.minDistance ^ 2) :
    Canvas2D.drawTo sqrt p s =
      { s with pointBuffer := if (s.pointBuffer ++ [p]).length > 5
          then (s.pointBuffer ++ [p]).drop 1 else s.pointBuffer ++ [p] } := by
  unfold Canvas2D.drawTo
  rw [hdraw]
  simp only [Bool.true_eq_false, if_false, hlast]
  have hball' := pushEvict_ball s.pointBuffer hball hp
  have hne : (if (s.pointBuffer ++ [p]).length > 5
      then (s.pointBuffer ++ [p]).drop 1 else s.pointBuffer ++ [p]) ≠ [] := by
    apply List.ne_nil_of_length_pos
    split
    · simp_all; omega
    · simp_all
  have hcand := applySmoothing_ball _ hne hp hball'
  rw [getDistance_eq_sqrt_dSq2, if_pos (sqrt_lt_radius hs (dSq2_nonneg _ _)
    (by norm_num [CONFIG.minDistance]) hcand)]

/-- Iterating drawTo over raw points inside the minDistance ball of the last
committed point never commits: the stroke and the last committed point are
untouched, and the buffer stays inside the ball. -/
lemma drawTo_stationary_foldl (sqrt : ℚ → ℚ) (hs : SqrtLB sqrt) :
    ∀ (raws : List Point2D) (s : Canvas2D.State) (last : Point2D),
      s.isDrawing = true → s.lastPoint = Option.some last →
      (∀ q ∈ s.pointBuffer, dSq2 last q < CONFIG.minDistance ^ 2) →
      (∀ r ∈ raws, dSq2 last r < CONFIG.minDistance ^ 2) →
      (raws.foldl (fun acc r => Canvas2D.drawTo sqrt r acc) s).smoothedPoints =
        s.smoothedPoints ∧
      (raws.foldl (fun acc r => Canvas2D.drawTo sqrt r acc) s).lastPoint =
        Option.some last := by
  intro raws
  induction raws with
  | nil => intro s last _ h2 _ _; exact ⟨rfl, h2⟩
  | cons r rs ih =>
    intro s last h1 h2 h3 h4
    rw [List.foldl_cons, drawTo_stationary_step sqrt hs s last r h1 h2 h3 (h4 r (by simp))]
    exact ih _ last h1 h2 (pushEvict_ball s.pointBuffer h3 (h4 r (by simp)))
      (fun rr hrr => h4 rr (by simp [hrr]))

/-- One 3D addPoint with a raw point inside the minDistance ball is a full
no-op: the lerped candidate is strictly closer than the raw point. -/
lemma addPoint_stationary_step (sqrt : ℚ → ℚ) (hs : SqrtLB sqrt)
    (l : NeonLine3D.Line) (last p : THREE.Vector3) (hdraw : l.isDrawing = true)
    (hlast : l.lastPoint = Option.some last)
    (hp : dSq3 last p < CONFIG.minDistance ^ 2) :
    NeonLine3D.addPoint sqrt p l = l := by
  unfold NeonLine3D.addPoint
  rw [hdraw]
  simp only [Bool.true_eq_false, if_false, hlast]
  have hcand : dSq3 last (NeonLine3D.interpolate last p CONFIG.smoothingFactor) <
      CONFIG.minDistance ^ 2 := by
    unfold dSq3 NeonLine3D.interpolate at *
    simp only [CONFIG.smoothingFactor] at *
    nlinarith [hp, sq_nonneg (p.x - last.x), sq_nonneg (p.y - last.y),
      sq_nonneg (p.z - last.z)]
  rw [distanceTo_eq_sqrt_dSq3, if_pos (sqrt_lt_radius hs (by unfold dSq3; positivity)
    (by norm_num [CONFIG.minDistance]) hcand)]

/-- Iterated 3D addPoint over stationary raw points leaves the line as is. -/
lemma addPoint_stationary_foldl (sqrt : ℚ → ℚ) (hs : SqrtLB sqrt) :
    ∀ (raws : List THREE.Vector3) (l : NeonLine3D.Line) (last : THREE.Vector3),
      l.isDrawing = true → l.lastPoint = Option.some last →
      (∀ r ∈ raws, dSq3 last r < CONFIG.minDistance ^ 2) →
      raws.foldl (fun acc r => NeonLine3D.addPoint sqrt r acc) l = l := by
  intro raws
  induction raws with
  | nil => intro l last _ _ _; rfl
  | cons r rs ih =>
    intro l last h1 h2 h3
    rw [List.foldl_cons, addPoint_stationary_step sqrt hs l last r h1 h2 (h3 r (by simp))]
    exact ih l last h1 h2 (fun rr hrr => h3 rr (by simp [hrr]))

/-- Concrete square-root value for the stationary counterexample. -/
lemma ratSqrt_49o4 : ratSqrt (49/4) = 7/2 := by
  rw [show (49/4 : ℚ) = (7/2) ^ 2 by norm_num]
  exact ratSqrt_sq _ (by norm_num)

lemma cex_step1 : Canvas2D.drawTo ratSqrt ⟨10, 0⟩
    (Canvas2D.startDrawing ⟨0, 0⟩ Canvas2D.initial) =
    ⟨Option.some ⟨7/2, 0⟩, true, [⟨0, 0⟩, ⟨10, 0⟩], [⟨0, 0⟩, ⟨7/2, 0⟩]⟩ := by
  simp only [Canvas2D.startDrawing, Canvas2D.initial, Canvas2D.drawTo,
    Canvas2D.applySmoothing, Canvas2D.calculateMovingAverage, Canvas2D.interpolate,
    Canvas2D.cubicInterpolate, Canvas2D.getDistance]
  norm_num [CONFIG.smoothingFactor, CONFIG.minDistance, ratSqrt_49o4]

lemma cex_step2 : Canvas2D.drawTo ratSqrt ⟨7/2, 0⟩
    (⟨Option.some ⟨7/2, 0⟩, true, [⟨0, 0⟩, ⟨10, 0⟩], [⟨0, 0⟩, ⟨7/2, 0⟩]⟩ :
      Canvas2D.State) =
    ⟨Option.some ⟨21/5, 0⟩, true, [⟨0, 0⟩, ⟨10, 0⟩, ⟨7/2, 0⟩],
      [⟨0, 0⟩, ⟨7/2, 0⟩, ⟨21/5, 0⟩]⟩ := by
  simp only [Canvas2D.drawTo, Canvas2D.applySmoothing, Canvas2D.calculateMovingAverage,
    Canvas2D.interpolate, Canvas2D.cubicInterpolate, Canvas2D.getDistance]
  norm_num [CONFIG.smoothingFactor, CONFIG.minDistance, ratSqrt_49e2]

/-- Counterexample for C6 as stated: right after drawing from the origin out
to (10, 0), the last committed point is (3.5, 0) and the buffer still holds
the distant raw points, so feeding the raw point (3.5, 0) - at distance 0,
well within minDistance, from the last committed point - still commits a new
point and grows the stroke from 2 to 3 points. -/
theorem stationary_jitter_cex :
    (Canvas2D.drawTo ratSqrt ⟨10, 0⟩
      (Canvas2D.startDrawing ⟨0, 0⟩ Canvas2D.initial)).lastPoint =
      Option.some ⟨7/2, 0⟩ ∧
    Canvas2D.getDistance ratSqrt ⟨7/2, 0⟩ ⟨7/2, 0⟩ < CONFIG.minDistance ∧
    (Canvas2D.drawTo ratSqrt ⟨10, 0⟩
      (Canvas2D.startDrawing ⟨0, 0⟩ Canvas2D.initial)).smoothedPoints.length = 2 ∧
    (Canvas2D.drawTo ratSqrt ⟨7/2, 0⟩ (Canvas2D.drawTo ratSqrt ⟨10, 0⟩
      (Canvas2D.startDrawing ⟨0, 0⟩ Canvas2D.initial))).smoothedPoints.length = 3 := by
  rw [cex_step1, cex_step2]
  refine ⟨rfl, ?_, rfl, rfl⟩
  norm_num [Canvas2D.getDistance, ratSqrt_zero, CONFIG.minDistance]

/-- C6 amended: on either accumulator the jitter gate itself behaves as
claimed (a smoothed candidate within minDistance of the last committed point
commits nothing and moves nothing).  The stationary-sequence consequence
holds unconditionally for the 3D accumulator, and for the 2D accumulator
once the smoothing buffer lies within minDistance of the last committed
point; without that buffer condition a raw point equal to the last committed
point can still be committed (see the counterexample). -/
theorem jitter_gate_amended (sqrt : ℚ → ℚ) (hs : SqrtLB sqrt) :
    (∀ (s : Canvas2D.State) (p last : Point2D), s.isDrawing = true →
      s.lastPoint = Option.some last →
      Canvas2D.getDistance sqrt last
        (Canvas2D.applySmoothing
          (if (s.pointBuffer ++ [p]).length > 5 then (s.pointBuffer ++ [p]).drop 1
           else s.pointBuffer ++ [p]) last p) < CONFIG.minDistance →
      (Canvas2D.drawTo sqrt p s).smoothedPoints = s.smoothedPoints ∧
      (Canvas2D.drawTo sqrt p s).lastPoint = s.lastPoint) ∧
    (∀ (l : NeonLine3D.Line) (p last : THREE.Vector3), l.isDrawing = true →
      l.lastPoint = Option.some last →
      NeonLine3D.distanceTo sqrt last
        (NeonLine3D.interpolate last p CONFIG.smoothingFactor) < CONFIG.minDistance →
      NeonLine3D.addPoint sqrt p l = l) ∧
    (∀ (raws : List THREE.Vector3) (l : NeonLine3D.Line) (last : THREE.Vector3),
      l.isDrawing = true → l.lastPoint = Option.some last →
      (∀ r ∈ raws, dSq3 last r < CONFIG.minDistance ^ 2) →
      raws.foldl (fun acc r => NeonLine3D.addPoint sqrt r acc) l = l) ∧
    (∀ (raws : List Point2D) (s : Canvas2D.State) (last : Point2D),
      s.isDrawing = true → s.lastPoint = Option.some last →
      (∀ q ∈ s.pointBuffer, dSq2 last q < CONFIG.minDistance ^ 2) →
      (∀ r ∈ raws, dSq2 last r < CONFIG.minDistance ^ 2) →
      (raws.foldl (fun acc r => Canvas2D.drawTo sqrt r acc) s).smoothedPoints =
        s.smoothedPoints ∧
      (raws.foldl (fun acc r => Canvas2D.drawTo sqrt r acc) s).lastPoint =
        Option.some last) := by
  refine ⟨?_, ?_, ?_, ?_⟩
  · intro s p last hdraw hlast hgate
    unfold Canvas2D.drawTo
    rw [hdraw]
    simp only [Bool.true_eq_false, if_false, hlast]
    rw [if_pos hgate]
    exact ⟨rfl, rfl⟩
  · intro l p last hdraw hlast hgate
    unfold NeonLine3D.addPoint
    rw [hdraw]
    simp only [Bool.true_eq_false, if_false, hlast]
    rw [if_pos hgate]
  · intro raws l last h1 h2 h3
    exact addPoint_stationary_foldl sqrt hs raws l last h1 h2 h3
  · intro raws s last h1 h2 h3 h4
    exact drawTo_stationary_foldl sqrt hs raws s last h1 h2 h3 h4

/-- Witness for the amended C6: a freshly started 2D stroke fed one raw
point half a millimetre away commits nothing, and likewise a freshly started
3D line fed two such points is left exactly as it was. -/
theorem jitter_gate_amended_witness :
    (SqrtLB ratSqrt ∧
      (Canvas2D.startDrawing ⟨0, 0⟩ Canvas2D.initial).isDrawing = true ∧
      (NeonLine3D.startDrawing ⟨0, 0, 0⟩ NeonLine3D.fresh).isDrawing = true) ∧
    (([⟨1/200, 0⟩] : List Point2D).foldl
        (fun acc r => Canvas2D.drawTo ratSqrt r acc)
        (Canvas2D.startDrawing ⟨0, 0⟩ Canvas2D.initial)).smoothedPoints =
      (Canvas2D.startDrawing ⟨0, 0⟩ Canvas2D.initial).smoothedPoints ∧
    ([⟨1/200, 0, 0⟩, ⟨1/200, 0, 0⟩] : List THREE.Vector3).foldl
        (fun acc r => NeonLine3D.addPoint ratSqrt r acc)
        (NeonLine3D.startDrawing ⟨0, 0, 0⟩ NeonLine3D.fresh) =
      NeonLine3D.startDrawing ⟨0, 0, 0⟩ NeonLine3D.fresh := by
  have h := jitter_gate_amended ratSqrt ratSqrt_lb
  refine ⟨⟨ratSqrt_lb, rfl, rfl⟩, ?_, ?_⟩
  · exact (h.2.2.2 [⟨1/200, 0⟩] (Canvas2D.startDrawing ⟨0, 0⟩ Canvas2D.initial)
      ⟨0, 0⟩ rfl rfl
      (by intro q hq; simp only [Canvas2D.startDrawing, List.mem_singleton] at hq;
          subst hq; norm_num [dSq2, CONFIG.minDistance])
      (by intro r hr; simp only [List.mem_singleton] at hr;
          subst hr; norm_num [dSq2, CONFIG.minDistance])).1
  · exact h.2.2.1 [⟨1/200, 0, 0⟩, ⟨1/200, 0, 0⟩]
      (NeonLine3D.startDrawing ⟨0, 0, 0⟩ NeonLine3D.fresh) ⟨0, 0, 0⟩ rfl rfl
      (by intro r hr; simp only [List.mem_cons, List.mem_singleton] at hr;
          rcases hr with hr | hr | hr <;> first
            | (subst hr; norm_num [dSq3, CONFIG.minDistance])
            | cases hr)
